import Mathlib

set_option maxHeartbeats 1000000
set_option maxRecDepth 4000

/-
Shallow embedding of the wikidata-constraints engine (src/base.py, src/utils.py,
src/builtin.py, src/custom.py, src/evaluator.py).

Conventions of the embedding:
* Python sets over strings and scopes are modelled as lists (membership only)
  or as `Finset Scope`; iteration order of Python sets is modelled by a fixed
  deterministic order (first-occurrence order), which the spec declares
  unobservable ("the order of evaluated entries is otherwise unspecified").
* Python exceptions are modelled with `Except EvalErr`; the two network error
  classes (requests.ConnectionError, pywikibot ServerError) caught by the code
  are the constructor `EvalErr.sparqlFail`, every other runtime error
  (AttributeError/TypeError on malformed data, ...) is `EvalErr.pyError`.
* Mutable state (the constraints cache of the store and the LRU caches of
  SubjectType / ValueType instances) is passed explicitly as a `Store` value;
  each SubjectType / ValueType instance receives a fresh numbered cache slot at
  construction time, mirroring object identity.  (Note: in the source,
  `ConstraintsStore._caches` is a `defaultdict(OrderedDict)` whose entries are
  always empty and hence falsy, so `cache or LRUCache(...)` in
  `SubjectType.__init__` always allocates a private per-instance cache.)
* `Decimal` amounts are modelled as rationals; `Decimal.log10` is a
  collaborator function supplied by the environment.
* `resolve_target_entity` loops on redirects without a cap in the source
  (spec section 9 records this); the embedding supplies fuel from the
  environment so that every definition is total.
-/

inductive Scope where
  | MAIN
  | QUALIFIER
  | REFERENCE
deriving DecidableEq

/-- The Python expression `set(Scope)`. -/
def allScopes : Finset Scope :=
  {Scope.MAIN, Scope.QUALIFIER, Scope.REFERENCE}

inductive Status where
  | SUGGESTION
  | REGULAR
  | MANDATORY
deriving DecidableEq

/-- The IntEnum weights of src/base.py. -/
def Status.toInt : Status → Int
  | .SUGGESTION => 1
  | .REGULAR => 2
  | .MANDATORY => 4

inductive SnakType where
  | value
  | novalue
  | somevalue
deriving DecidableEq

/-- The snak-kind literal used by `in_values` for non-value snaks. -/
def SnakType.str : SnakType → String
  | .value => "value"
  | .novalue => "novalue"
  | .somevalue => "somevalue"

inductive Rank where
  | deprec
  | normal
  | preferred
deriving DecidableEq

structure WbTime where
  year : Int
  month : Nat
  day : Nat
  hour : Nat
  minute : Nat
  second : Nat
  precision : Nat
deriving DecidableEq

structure WbQuantity where
  amount : ℚ
  unit : Option String
  lowerBound : Option ℚ
  upperBound : Option ℚ
deriving DecidableEq

/-- The tagged union of claim values (spec section 3); `page`, `geoshape` and
`tabular` carry the namespaced title used by `Format`. -/
inductive Value where
  | item (id : String)
  | strv (s : String)
  | mono (lang text : String)
  | quantity (q : WbQuantity)
  | time (t : WbTime)
  | page (ns : Int) (title : String)
  | geoshape (title : String)
  | tabular (title : String)
deriving DecidableEq

/-- Python truthiness of a claim target: `None` is handled by `Option`;
of the value objects only the empty string is falsy. -/
def Value.truthy : Value → Bool
  | .strv s => !(s == "")
  | _ => true

/-- A qualifier snak.  Qualifiers carry no qualifiers or sources of their own
(spec section 3 invariants), so they are modelled by a flat record. -/
structure Qual where
  snak : String
  prop : String
  snaktype : SnakType
  target : Option Value
  rank : Rank
  isQualifier : Bool
  isReference : Bool
deriving DecidableEq

mutual
/-- A pywikibot Claim: reference blocks are abstracted to the list of their
property ids (the only data the engine reads from them); `onItem` is the
owning entity (`claim.on_item`), `none` when detached. -/
inductive Claim where
  | mk (snak : String) (prop : String) (snaktype : SnakType)
      (target : Option Value) (rank : Rank)
      (isQualifier : Bool) (isReference : Bool)
      (qualifiers : List (String × List Qual))
      (sources : List (List String))
      (onItem : Option Entity) : Claim

/-- An entity revision: claims multimap, label and description language keys
(the values of labels/descriptions are never read by the engine). -/
inductive Entity where
  | mk (id : String) (claims : List (String × List Claim))
      (labels : List String) (descriptions : List String) : Entity
end

def Claim.snak : Claim → String
  | .mk s _ _ _ _ _ _ _ _ _ => s

def Claim.prop : Claim → String
  | .mk _ p _ _ _ _ _ _ _ _ => p

def Claim.snaktype : Claim → SnakType
  | .mk _ _ st _ _ _ _ _ _ _ => st

def Claim.target : Claim → Option Value
  | .mk _ _ _ t _ _ _ _ _ _ => t

def Claim.rank : Claim → Rank
  | .mk _ _ _ _ r _ _ _ _ _ => r

def Claim.isQualifier : Claim → Bool
  | .mk _ _ _ _ _ q _ _ _ _ => q

def Claim.isReference : Claim → Bool
  | .mk _ _ _ _ _ _ r _ _ _ => r

def Claim.qualifiers : Claim → List (String × List Qual)
  | .mk _ _ _ _ _ _ _ qs _ _ => qs

def Claim.sources : Claim → List (List String)
  | .mk _ _ _ _ _ _ _ _ ss _ => ss

def Claim.onItem : Claim → Option Entity
  | .mk _ _ _ _ _ _ _ _ _ e => e

def Entity.id : Entity → String
  | .mk i _ _ _ => i

def Entity.claims : Entity → List (String × List Claim)
  | .mk _ cs _ _ => cs

def Entity.labels : Entity → List String
  | .mk _ _ ls _ => ls

def Entity.descriptions : Entity → List String
  | .mk _ _ _ ds => ds

/-- Embedding a qualifier as the Claim that pywikibot hands to claim-level
predicates: same snak data, no qualifiers, no sources, no owner. -/
def Qual.toClaim (q : Qual) : Claim :=
  .mk q.snak q.prop q.snaktype q.target q.rank q.isQualifier q.isReference [] [] none

/-- Association-list lookup standing for Python `dict.get(key, [])`. -/
def alistGet {α : Type} (m : List (String × List α)) (key : String) : List α :=
  match m.find? (fun kv => kv.1 == key) with
  | some kv => kv.2
  | none => []

/-- Key list of a Python dict (insertion order, first occurrence wins). -/
def alistKeys {α : Type} (m : List (String × List α)) : List String :=
  (m.map Prod.fst).eraseDups

/-- Entity claims lookup: `entity.claims.get(prop, [])`. -/
def Entity.getClaims (e : Entity) (prop : String) : List Claim :=
  alistGet e.claims prop

/-- Key membership in `entity.claims`. -/
def Entity.hasProp (e : Entity) (prop : String) : Bool :=
  (e.claims.map Prod.fst).contains prop

/-! Utilities (src/utils.py). -/

/-- Bounded LRU cache (src/utils.py `LRUCache`): newest items at the tail. -/
structure LRUCache (κ α : Type) where
  items : List (κ × α)
  limit : Nat

def LRUCache.has {κ α : Type} [DecidableEq κ] (c : LRUCache κ α) (key : κ) : Bool :=
  (c.items.map Prod.fst).contains key

/-- Lookup; `none` models the KeyError Python would raise.  `getMove` below
also performs the `move_to_end` touch. -/
def LRUCache.peek {κ α : Type} [DecidableEq κ] (c : LRUCache κ α) (key : κ) : Option α :=
  match c.items.find? (fun kv => decide (kv.1 = key)) with
  | some kv => some kv.2
  | none => none

/-- `get`: read the value and move the key to the most-recent end. -/
def LRUCache.getMove {κ α : Type} [DecidableEq κ] (c : LRUCache κ α) (key : κ) :
    Option (α × LRUCache κ α) :=
  match c.items.find? (fun kv => decide (kv.1 = key)) with
  | some kv =>
      some (kv.2, { c with items := (c.items.filter (fun p => decide (p.1 ≠ key))) ++ [kv] })
  | none => none

/-- `set`: write, move to end, evict oldest entries beyond the limit. -/
def LRUCache.setVal {κ α : Type} [DecidableEq κ] (c : LRUCache κ α) (key : κ) (val : α) :
    LRUCache κ α :=
  let items := (c.items.filter (fun p => decide (p.1 ≠ key))) ++ [(key, val)]
  let items := if items.length > c.limit then items.drop (items.length - c.limit) else items
  { c with items := items }

def LRUCache.empty (κ α : Type) (limit : Nat) : LRUCache κ α :=
  { items := [], limit := limit }

/-- `cmp_key(claim) = (claim.snaktype, claim.target)` on top-level claims. -/
def cmpKey (c : Claim) : SnakType × Option Value :=
  (c.snaktype, c.target)

/-- `cmp_key` applied to a qualifier snak. -/
def cmpKeyQ (q : Qual) : SnakType × Option Value :=
  (q.snaktype, q.target)

/-- Errors: `sparqlFail` stands for the two network error classes
(requests.ConnectionError / pywikibot ServerError) that the code catches by
name; `pyError` stands for any other Python runtime error. -/
inductive EvalErr where
  | sparqlFail (query : String)
  | pyError (msg : String)
deriving DecidableEq

/-- `in_values(claim, values)` of src/utils.py, on a top-level claim.  A
`value` snak whose target is absent or not entity-typed makes Python raise
(`None.getID()` / `str.getID()`), hence the error cases. -/
def inValuesC (c : Claim) (values : List String) : Except EvalErr Bool :=
  match c.snaktype with
  | .value =>
      match c.target with
      | some (.item id) => .ok (values.contains id)
      | _ => .error (.pyError "in_values: target has no getID")
  | st => .ok (values.contains st.str)

/-- `same_as` of the pywikibot collaborator, modelled as field equality of the
compared components (snak kind, target, optionally rank / qualifiers /
references). -/
def sameAs (a b : Claim) (ignoreRank ignoreQuals ignoreRefs : Bool) : Bool :=
  decide (a.snaktype = b.snaktype) && decide (a.target = b.target) &&
  (ignoreRank || decide (a.rank = b.rank)) &&
  (ignoreQuals || decide (a.qualifiers = b.qualifiers)) &&
  (ignoreRefs || decide (a.sources = b.sources))

/-- `item_has_claim(item, claim)` of src/utils.py with pywikibot defaults for
`same_as` (ignore_rank=True, ignore_quals=False, ignore_refs=True). -/
def itemHasClaim (item : Entity) (c : Claim) : Bool :=
  (item.getClaims c.prop).any (fun cl => sameAs c cl true false true)

/-- `get_best_claims(mapping, id)` of src/utils.py. -/
def getBestClaims (mapping : List (String × List Claim)) (id : String) : List Claim :=
  let step : (List Claim × Rank) → Claim → (List Claim × Rank) := fun acc claim =>
    let acc := if claim.rank = .preferred then ([], Rank.preferred) else acc
    if claim.rank = acc.2 then (acc.1 ++ [claim], acc.2) else acc
  ((alistGet mapping id).foldl step ([], Rank.normal)).1

/-! Calendar arithmetic for the pywikibot Timestamp collaborator. -/

/-- Days since 1970-01-01 of a proleptic Gregorian civil date. -/
def daysFromCivil (y : Int) (m d : Nat) : Int :=
  let yr : Int := if m ≤ 2 then y - 1 else y
  let era : Int := Int.fdiv yr 400
  let yoe : Int := yr - era * 400
  let mp : Int := (Int.ofNat m + 9) % 12
  let doy : Int := Int.fdiv (153 * mp + 2) 5 + Int.ofNat d - 1
  let doe : Int := yoe * 365 + Int.fdiv yoe 4 - Int.fdiv yoe 100 + doy
  era * 146097 + doe - 719468

/-- Seconds since the epoch of a WbTime read as a civil datetime. -/
def WbTime.totalSeconds (t : WbTime) : Int :=
  86400 * daysFromCivil t.year t.month t.day
    + 3600 * Int.ofNat t.hour + 60 * Int.ofNat t.minute + Int.ofNat t.second

/-- `WbTime.toTimestamp` raises ValueError outside the datetime year range
1..9999; otherwise it denotes the civil instant. -/
def WbTime.toTimestampE (t : WbTime) : Except Unit Int :=
  if 1 ≤ t.year ∧ t.year ≤ 9999 then .ok t.totalSeconds else .error ()

/-- `WbTime.normalize`: reset the fields finer than the precision to their
defaults (precision 9 = year, 10 = month, 11 = day, 12/13/14 = h/m/s). -/
def WbTime.normalize (t : WbTime) : WbTime :=
  { t with
    month := if t.precision ≥ 10 then t.month else 1
    day := if t.precision ≥ 11 then t.day else 1
    hour := if t.precision ≥ 12 then t.hour else 0
    minute := if t.precision ≥ 13 then t.minute else 0
    second := if t.precision ≥ 14 then t.second else 0 }

/-- `timedelta.days` of the difference of two timestamps, in seconds:
Python timedelta keeps 0 ≤ seconds < 86400, so days is the floor quotient. -/
def timedeltaDays (seconds : Int) : Int :=
  Int.fdiv seconds 86400

/-! The constraint family (src/builtin.py, src/custom.py).  One flat inductive
covers the claim-level (`violates`) and entity-level (`satisfied`) variants;
class-membership tests of the source (`isinstance`) become tests on the
constructor.  SubjectType and ValueType carry the numbered cache slot `cid`
their instance received at construction. -/

inductive CType where
  | propertyScope (values : Finset Scope)
  | oneOf (values : List String)
  | noneOf (values : List String)
  | format (fullmatch : String → Bool)
  | valueRequires (prop : String) (values : Option (List String))
  | valueType (relation : List String) (classes : List String) (cid : Nat)
  | symmetric
  | inverse (prop : String)
  | commonsLink (namespc : Int)
  | integer
  | noBounds
  | quantityRange (lower upper : Option ℚ)
  | timeRange (lower upper : Option WbTime)
  | differenceWithinRange (prop : String) (lower upper : Option WbQuantity)
  | units (values : List String)
  | qualifiersC (values : List String)
  | requiredQualifiers (values : List String)
  | valueExists
  | noLinksToDisambiguation
  | noSelfLink
  | sandboxProperty
  | error404
  | hasValidReference
  | largeChange
  | subjectType (relation : List String) (classes : List String) (cid : Nat)
  | itemRequires (prop : String) (values : Option (List String))
  | conflictsWith (prop : String) (values : Option (List String))
  | labelInLanguage (langs : List String)
  | descriptionInLanguage (langs : List String)

/-- Whether the variant subclasses ClaimConstraintType in the source. -/
def CType.isClaimLevel : CType → Bool
  | .subjectType _ _ _ => false
  | .itemRequires _ _ => false
  | .conflictsWith _ _ => false
  | .labelInLanguage _ => false
  | .descriptionInLanguage _ => false
  | _ => true

/-- The `scopes` property of the predicate classes: the base default is
`set(Scope)`, ItemConstraintType and the listed overrides restrict to MAIN. -/
def CType.intrinsicScopes : CType → Finset Scope
  | .symmetric => {Scope.MAIN}
  | .inverse _ => {Scope.MAIN}
  | .qualifiersC _ => {Scope.MAIN}
  | .requiredQualifiers _ => {Scope.MAIN}
  | .hasValidReference => {Scope.MAIN}
  | .subjectType _ _ _ => {Scope.MAIN}
  | .itemRequires _ _ => {Scope.MAIN}
  | .conflictsWith _ _ => {Scope.MAIN}
  | .labelInLanguage _ => {Scope.MAIN}
  | .descriptionInLanguage _ => {Scope.MAIN}
  | _ => allScopes

/-- `value_change_needed`: ClaimConstraintType returns True, the base class
and the Qualifiers / RequiredQualifiers overrides return False. -/
def CType.valueChangeNeeded : CType → Bool
  | .qualifiersC _ => false
  | .requiredQualifiers _ => false
  | .subjectType _ _ _ => false
  | .itemRequires _ _ => false
  | .conflictsWith _ _ => false
  | .labelInLanguage _ => false
  | .descriptionInLanguage _ => false
  | _ => true

/-- A loaded constraint (src/evaluator.py `Constraint`). -/
structure Constraint where
  prop : String
  claimId : Option String
  ctype : CType
  status : Status
  scopes : Finset Scope

/-- `Constraint.may_check(scope)`. -/
def Constraint.mayCheck (c : Constraint) (scope : Scope) : Bool :=
  decide (scope ∈ c.scopes) && decide (scope ∈ c.ctype.intrinsicScopes)

/-- The `type=` filters used at the call sites of `get_constraints`. -/
inductive TypeFilter where
  | claimLevel
  | specifier
  | itemRequiresF
  | conflictsWithF
  | subjectTypeF
  | labelInLanguageF
  | descriptionInLanguageF
  | propertyScopeF
deriving DecidableEq

/-- `isinstance(constr.type, type_)` for each filter. -/
def TypeFilter.matches : TypeFilter → CType → Bool
  | .claimLevel, t => t.isClaimLevel
  | .specifier, .itemRequires _ _ => true
  | .specifier, .conflictsWith _ _ => true
  | .specifier, .subjectType _ _ _ => true
  | .specifier, _ => false
  | .itemRequiresF, .itemRequires _ _ => true
  | .itemRequiresF, _ => false
  | .conflictsWithF, .conflictsWith _ _ => true
  | .conflictsWithF, _ => false
  | .subjectTypeF, .subjectType _ _ _ => true
  | .subjectTypeF, _ => false
  | .labelInLanguageF, .labelInLanguage _ => true
  | .labelInLanguageF, _ => false
  | .descriptionInLanguageF, .descriptionInLanguage _ => true
  | .descriptionInLanguageF, _ => false
  | .propertyScopeF, .propertyScope _ => true
  | .propertyScopeF, _ => false

/-- A property page as the store consumes it: id, datatype and claims
(`P2302` declarations, `P1630` formatters). -/
structure PropPage where
  id : String
  ptype : String
  claims : List (String × List Claim)

/-- What the entity store returns for an id (`entity.get()` semantics):
the entity, a redirect, or NoPageError. -/
inductive EntityFetch where
  | entity (e : Entity)
  | redirect (tgt : String)
  | missing

/-- The external collaborators (spec section 6): SPARQL client, entity store,
page/HTTP probes, regex engine, clock, Decimal.log10. -/
structure Env where
  sparqlSelectPairs : String → Except String (List (String × String))
  sparqlAsk : String → Except String Bool
  sparqlGetItems : String → String → Except String (List String)
  getEntity : String → EntityFetch
  redirectFuel : Nat
  pageExists : Int → String → Bool
  stringToPage : Int → String → Option (Int × String)
  httpOk : String → Bool
  propPage : String → PropPage
  entityExists : String → Bool
  logTen : ℚ → ℚ
  nowTime : WbTime
  lookupNamespace : String → Option Int
  compileRegex : String → Option (String → Bool)

/-- The mutable state of a `ConstraintsStore`: the per-property constraints
cache, the numbered LRU slots of SubjectType / ValueType instances, and the
allocation counter. -/
structure Store where
  cache : List (String × List Constraint)
  stCaches : List (Nat × LRUCache (String × String) Bool)
  vtCaches : List (Nat × LRUCache String Bool)
  nextCid : Nat

/-- Fetch the private LRU cache of a SubjectType instance (fresh empty
LRUCache(100) when the slot has not been written yet). -/
def Store.stCacheOf (st : Store) (cid : Nat) : LRUCache (String × String) Bool :=
  match st.stCaches.find? (fun kv => kv.1 == cid) with
  | some kv => kv.2
  | none => LRUCache.empty (String × String) Bool 100

def Store.setStCache (st : Store) (cid : Nat) (c : LRUCache (String × String) Bool) : Store :=
  { st with stCaches := (st.stCaches.filter (fun kv => kv.1 != cid)) ++ [(cid, c)] }

def Store.vtCacheOf (st : Store) (cid : Nat) : LRUCache String Bool :=
  match st.vtCaches.find? (fun kv => kv.1 == cid) with
  | some kv => kv.2
  | none => LRUCache.empty String Bool 100

def Store.setVtCache (st : Store) (cid : Nat) (c : LRUCache String Bool) : Store :=
  { st with vtCaches := (st.vtCaches.filter (fun kv => kv.1 != cid)) ++ [(cid, c)] }

/-- Sequencing of store-threading computations that may raise. -/
def ebind {α β : Type} (m : Except EvalErr (α × Store))
    (f : α → Store → Except EvalErr (β × Store)) : Except EvalErr (β × Store) :=
  match m with
  | .error e => .error e
  | .ok (a, st) => f a st

/-- Result accumulator (src/evaluator.py `Result`). -/
structure Result where
  score : Int
  evaluated : List (Constraint × Int)

def Result.empty : Result := { score := 0, evaluated := [] }

/-- `Result.add(constraint, score)`. -/
def Result.add (r : Result) (c : Constraint) (s : Int) : Result :=
  { score := r.score + s, evaluated := r.evaluated ++ [(c, s)] }

/-- `Result.get_violated_constraints()`. -/
def Result.getViolatedConstraints (r : Result) : List Constraint :=
  (r.evaluated.filter (fun p => p.2 > 0)).map Prod.fst

/-- `Result.get_fixed_constraints()`. -/
def Result.getFixedConstraints (r : Result) : List Constraint :=
  (r.evaluated.filter (fun p => p.2 < 0)).map Prod.fst

/-! Predicates (src/builtin.py, src/custom.py). -/

/-- `' '.join(f'wd:{x}' for x in xs)`. -/
def joinWd (xs : List String) : String :=
  String.intercalate " " (xs.map (fun x => "wd:" ++ x))

/-- The SELECT query built by `SubjectType.satisfied` from its pattern. -/
def subjectTypeQuery (check : List String) : String :=
  "SELECT REDUCED ?base ?super \x7b VALUES ?base \x7b " ++ joinWd check ++
    " \x7d . ?base wdt:P279+ ?super \x7d"

/-- The ASK query built by `ValueType.violates` from the pattern assembled in
`ValueType.__init__`. -/
def valueTypeQuery (relation classes : List String) (tid : String) : String :=
  let mid := if relation = ["P279"] then ""
    else "wdt:P31" ++ (if relation.contains "P279" then "?" else "") ++ "/"
  "ASK \x7b VALUES ?class \x7b " ++ joinWd classes ++ " \x7d . wd:" ++ tid ++ " " ++
    mid ++ "wdt:P279* ?class \x7d"

/-- Outcome of `resolve_target_entity`: the resolved entity or NoPageError. -/
inductive ResolveOut where
  | found (e : Entity)
  | noPage

/-- `resolve_target_entity` (src/utils.py): follow redirects; the source loops
without a cap, the embedding burns one fuel unit per redirect hop. -/
def resolveEntity (env : Env) : Nat → String → Except EvalErr ResolveOut
  | 0, _ => .error (.pyError "redirect fuel exhausted")
  | Nat.succ fuel, id =>
      match env.getEntity id with
      | .entity e => .ok (.found e)
      | .missing => .ok .noPage
      | .redirect tgt => resolveEntity env fuel tgt

/-- `ConstraintsStore._get_values(qualifiers)`: snak-kind literal for
non-value snaks, target entity id otherwise (AttributeError when the target
is absent or not entity-typed). -/
def getValuesQ (quals : List Qual) : Except EvalErr (List String) :=
  quals.foldlM (fun acc qual =>
    match qual.snaktype with
    | .value =>
        match qual.target with
        | some (.item id) => .ok (if acc.contains id then acc else acc ++ [id])
        | _ => Except.error (.pyError "get_values: target has no getID")
    | st => .ok (if acc.contains st.str then acc else acc ++ [st.str])) []

/-- Short-circuiting `any(in_values(cl, values) for cl in claims)`. -/
def anyInValues : List Claim → List String → Except EvalErr Bool
  | [], _ => .ok false
  | cl :: rest, vs =>
      match inValuesC cl vs with
      | .error e => .error e
      | .ok true => .ok true
      | .ok false => anyInValues rest vs

/-- Short-circuiting `all(not in_values(cl, values) for cl in claims)`. -/
def allNotInValues : List Claim → List String → Except EvalErr Bool
  | [], _ => .ok true
  | cl :: rest, vs =>
      match inValuesC cl vs with
      | .error e => .error e
      | .ok true => .ok false
      | .ok false => allNotInValues rest vs

/-- `cl.target_equals(claim.on_item)`: pywikibot compares the target with the
entity by id; with a detached claim (`on_item is None`) the comparison
degenerates to `self.target == None`. -/
def claimTargetEqualsEntity (cl : Claim) (ent : Option Entity) : Bool :=
  match cl.target, ent with
  | some (.item tid), some e => tid == e.id
  | none, none => true
  | _, _ => false

/-- `TimeRange._as_tuple(value, prec)`. -/
def timeAsTuple (v : WbTime) (prec : Nat) : List Int :=
  ([v.year, (v.month : Int), (v.day : Int), (v.hour : Int), (v.minute : Int),
    (v.second : Int)]).take (max 1 (prec - 8))

/-- Python tuple `<` on integer tuples. -/
def tupleLt : List Int → List Int → Bool
  | [], [] => false
  | [], _ :: _ => true
  | _ :: _, [] => false
  | a :: as_, b :: bs => a < b || (a == b && tupleLt as_ bs)

/-- One bound check of `DifferenceWithinRange._outside_range`: the delta in
the unit item of the bound compared by `cmp` (strictly below the lower bound
or strictly above the upper one at the two call sites). -/
def dwrBoundViol (bound : Option WbQuantity) (years delta : Int)
    (cmp : ℚ → ℚ → Bool) : Bool :=
  match bound with
  | some bq =>
      match bq.unit with
      | some uu =>
          (uu == "Q577" && cmp (years : ℚ) bq.amount)
          || (uu == "Q573" && cmp ((timedeltaDays delta : Int) : ℚ) bq.amount)
          || (uu == "Q11574" && cmp ((delta : Int) : ℚ) bq.amount)
      | none => false
  | none => false

/-- `DifferenceWithinRange._outside_range(this, other)`; the ValueError of
`toTimestamp` on years outside 1..9999 is caught (warning) yielding False. -/
def dwrOutsideRange (lo hi : Option WbQuantity) (this other : Value) : Bool :=
  match this, other with
  | .time t, .time u =>
      let tn := t.normalize
      let un := u.normalize
      match tn.toTimestampE, un.toTimestampE with
      | .ok ts, .ok us =>
          let delta := ts - us
          let years0 : Int := tn.year - un.year
          let years : Int :=
            if tupleLt [(tn.month : Int), (tn.day : Int)] [(un.month : Int), (un.day : Int)]
            then years0 - 1 else years0
          dwrBoundViol lo years delta (fun x y => decide (x < y))
          || dwrBoundViol hi years delta (fun x y => decide (x > y))
      | _, _ => false
  | _, _ => false

/-- `DifferenceWithinRange.violates(claim)` given the owning entity
(`claim.on_item`). -/
def dwrViolates (prop : String) (lo hi : Option WbQuantity) (c : Claim)
    (owner : Entity) : Bool :=
  match c.target with
  | none => false
  | some v =>
      if !v.truthy then false
      else if (owner.getClaims prop).isEmpty then false
      else (owner.getClaims prop).all (fun o =>
        match o.target with
        | none => true
        | some w => if w.truthy then dwrOutsideRange lo hi v w else true)

/-- The `check` set collected at the start of `SubjectType.satisfied`: ids of
the truthy targets of the revision's `relation` claims. -/
def subjectTypeCheck (relation : List String) (rev : Entity) :
    Except EvalErr (List String) :=
  let addTargets : List String → List Claim → Except EvalErr (List String) :=
    fun acc claims => claims.foldlM (fun acc cl =>
      match cl.target with
      | none => .ok acc
      | some v =>
          if v.truthy then
            match v with
            | .item id => .ok (if acc.contains id then acc else acc ++ [id])
            | _ => Except.error (.pyError "target has no getID")
          else .ok acc) acc
  relation.foldlM (fun acc prop => addTargets acc (rev.getClaims prop)) []

/-- `SubjectType.satisfied(revision)` with the instance cache in slot `cid`. -/
def subjectTypeSatisfied (env : Env) (relation classes : List String) (cid : Nat)
    (rev : Entity) (st : Store) : Except EvalErr (Bool × Store) :=
  match subjectTypeCheck relation rev with
  | .error e => .error e
  | .ok check =>
      if check.isEmpty then .ok (false, st)
      else if check.any (fun b => classes.contains b) then .ok (true, st)
      else
        let cross := check.flatMap (fun base => classes.map (fun item => (base, item)))
        let cache := st.stCacheOf cid
        -- any(cache.has(key) and cache.get(key) for key in cross); get touches
        let anyCached : LRUCache (String × String) Bool →
            (Bool × LRUCache (String × String) Bool) := fun c0 =>
          cross.foldl (fun acc key =>
            if acc.1 then acc
            else if acc.2.has key then
              match acc.2.getMove key with
              | some (b, c2) => (b, c2)
              | none => acc
            else acc) (false, c0)
        let (hit, cache) := anyCached cache
        if hit then .ok (true, st.setStCache cid cache)
        else if cross.all (fun key => cache.has key) then
          .ok (false, st.setStCache cid cache)
        else
          let q := subjectTypeQuery check
          match env.sparqlSelectPairs q with
          | .error _ => .error (.sparqlFail q)
          | .ok rows =>
              let cache := rows.foldl (fun c row => c.setVal row true) cache
              let step : (Bool × LRUCache (String × String) Bool) → String × String →
                  (Bool × LRUCache (String × String) Bool) := fun acc key =>
                let val := rows.contains key
                (acc.1 || val, acc.2.setVal key val)
              let (out, cache) := cross.foldl step (false, cache)
              .ok (out, st.setStCache cid cache)

/-- `violates(claim)` for claim-level predicates, threading the store caches.
`pyError` cases are where Python would raise (AttributeError / TypeError on a
malformed target); item-level variants have no `violates` attribute. -/
def violatesM (env : Env) (ct : CType) (c : Claim) (st : Store) :
    Except EvalErr (Bool × Store) :=
  match ct with
  | .propertyScope values =>
      if c.isQualifier then .ok (decide (Scope.QUALIFIER ∉ values), st)
      else if c.isReference then .ok (decide (Scope.REFERENCE ∉ values), st)
      else .ok (decide (Scope.MAIN ∉ values), st)
  | .oneOf values =>
      match inValuesC c values with
      | .error e => .error e
      | .ok b => .ok (!b, st)
  | .noneOf values =>
      match inValuesC c values with
      | .error e => .error e
      | .ok b => .ok (b, st)
  | .format fullmatch =>
      match c.target with
      | none => .ok (!(fullmatch ""), st)
      | some (.strv s) => .ok (!(fullmatch s), st)
      | some (.mono _ text) => .ok (!(fullmatch text), st)
      | some (.page _ title) => .ok (!(fullmatch title), st)
      | some (.geoshape title) => .ok (!(fullmatch title), st)
      | some (.tabular title) => .ok (!(fullmatch title), st)
      | some _ => .error (.pyError "fullmatch expects a string")
  | .valueRequires prop values =>
      match c.target with
      | some (.item tid) =>
          match resolveEntity env env.redirectFuel tid with
          | .error e => .error e
          | .ok .noPage => .ok (true, st)
          | .ok (.found tgt) =>
              if (tgt.getClaims prop).isEmpty then .ok (true, st)
              else match values with
                | none => .ok (false, st)
                | some vs =>
                    match allNotInValues (tgt.getClaims prop) vs with
                    | .error e => .error e
                    | .ok b => .ok (b, st)
      | _ => .ok (false, st)
  | .valueType relation classes cid =>
      match c.target with
      | some (.item tid) =>
          let cache := st.vtCacheOf cid
          if cache.has tid then
            match cache.getMove tid with
            | some (b, cache2) => .ok (b, st.setVtCache cid cache2)
            | none => .error (.pyError "unreachable")
          else
            let q := valueTypeQuery relation classes tid
            match env.sparqlAsk q with
            | .error _ => .error (.sparqlFail q)
            | .ok b =>
                let out := !b
                .ok (out, st.setVtCache cid (cache.setVal tid out))
      | _ => .ok (false, st)
  | .symmetric =>
      match c.target with
      | some (.item tid) =>
          match resolveEntity env env.redirectFuel tid with
          | .error e => .error e
          | .ok .noPage => .ok (true, st)
          | .ok (.found tgt) =>
              .ok ((tgt.getClaims c.prop).all
                (fun cl => !(claimTargetEqualsEntity cl c.onItem)), st)
      | _ => .ok (false, st)
  | .inverse prop =>
      match c.target with
      | some (.item tid) =>
          match resolveEntity env env.redirectFuel tid with
          | .error e => .error e
          | .ok .noPage => .ok (true, st)
          | .ok (.found tgt) =>
              .ok ((tgt.getClaims prop).all
                (fun cl => !(claimTargetEqualsEntity cl c.onItem)), st)
      | _ => .ok (false, st)
  | .commonsLink ns =>
      match c.target with
      | some (.page pns title) => .ok (!(pns == ns) || !(env.pageExists pns title), st)
      | some (.strv s) =>
          match env.stringToPage ns s with
          | none => .ok (true, st)
          | some (pns, title) => .ok (!(env.pageExists pns title), st)
      | _ => .error (.pyError "Page() of a non-string target")
  | .integer =>
      -- Decimal amounts are rationals here: `'.' in str(amount)` becomes a
      -- fractional-part test (a Decimal like 5.0 is not representable).
      match c.target with
      | some (.quantity q) => .ok (decide (q.amount.den ≠ 1), st)
      | _ => .ok (false, st)
  | .noBounds =>
      match c.target with
      | some (.quantity q) => .ok (q.upperBound.isSome || q.lowerBound.isSome, st)
      | _ => .ok (false, st)
  | .quantityRange lo hi =>
      match c.target with
      | some (.quantity q) =>
          .ok ((match lo with | some l => decide (q.amount < l) | none => false)
            || (match hi with | some u => decide (q.amount > u) | none => false), st)
      | _ => .ok (false, st)
  | .timeRange lo hi =>
      match c.target with
      | some (.time t) =>
          let norm := t.normalize
          let lowViol := match lo with
            | some l =>
                let prec := min l.precision norm.precision
                tupleLt (timeAsTuple norm prec) (timeAsTuple l prec)
            | none => false
          let upViol := match hi with
            | some u =>
                let prec := min u.precision norm.precision
                tupleLt (timeAsTuple u prec) (timeAsTuple norm prec)
            | none => false
          .ok (lowViol || upViol, st)
      | _ => .ok (false, st)
  | .differenceWithinRange prop lo hi =>
      match c.target with
      | none => .ok (false, st)
      | some v =>
          if !v.truthy then .ok (false, st)
          else match c.onItem with
            | none => .error (.pyError "on_item is None")
            | some owner => .ok (dwrViolates prop lo hi c owner, st)
  | .units values =>
      match c.target with
      | some (.quantity q) =>
          match q.unit with
          | none => .ok (!(values.contains "novalue"), st)
          | some u => .ok (!(values.contains u), st)
      | _ => .ok (false, st)
  | .qualifiersC values =>
      .ok ((alistKeys c.qualifiers).any (fun k => !(values.contains k)), st)
  | .requiredQualifiers values =>
      .ok (values.any (fun k => !((alistKeys c.qualifiers).contains k)), st)
  | .valueExists =>
      match c.target with
      | some (.item tid) => .ok (!(env.entityExists tid), st)
      | _ => .ok (false, st)
  | .noLinksToDisambiguation =>
      match c.target with
      | some (.item tid) =>
          match resolveEntity env env.redirectFuel tid with
          | .error e => .error e
          | .ok .noPage => .ok (false, st)
          | .ok (.found tgt) =>
              .ok ((tgt.getClaims "P31").any (fun cl =>
                match cl.target with
                | some (.item id) => id == "Q4167410" || id == "Q22808320"
                | _ => false), st)
      | _ => .ok (false, st)
  | .noSelfLink =>
      match c.target, c.onItem with
      | some (.item tid), some e => .ok (tid == e.id, st)
      | _, _ => .ok (false, st)
  | .sandboxProperty => .ok (true, st)
  | .error404 =>
      match c.target with
      | none => .ok (false, st)
      | some v =>
          if !v.truthy then .ok (false, st)
          else
            match getBestClaims (env.propPage c.prop).claims "P1630" with
            | [] => .ok (false, st)
            | b :: _ =>
                match b.target with
                | none => .ok (false, st)
                | some (.strv f) =>
                    if f = "" then .ok (false, st)
                    else match v with
                      | .strv s => .ok (!(env.httpOk (f.replace "$1" s)), st)
                      | _ => .error (.pyError "str.replace of a non-string value")
                | some _ => .error (.pyError "formatter target is not a string")
  | .hasValidReference => .ok (false, st)
  | .largeChange => .ok (false, st)
  | .subjectType _ _ _ => .error (.pyError "ItemConstraintType has no violates")
  | .itemRequires _ _ => .error (.pyError "ItemConstraintType has no violates")
  | .conflictsWith _ _ => .error (.pyError "ItemConstraintType has no violates")
  | .labelInLanguage _ => .error (.pyError "ItemConstraintType has no violates")
  | .descriptionInLanguage _ => .error (.pyError "ItemConstraintType has no violates")

/-- `satisfied(revision)` for entity-level predicates. -/
def satisfiedM (env : Env) (ct : CType) (rev : Entity) (st : Store) :
    Except EvalErr (Bool × Store) :=
  match ct with
  | .subjectType relation classes cid => subjectTypeSatisfied env relation classes cid rev st
  | .itemRequires prop values =>
      if (rev.getClaims prop).isEmpty then .ok (false, st)
      else match values with
        | none => .ok (true, st)
        | some [] => .ok (true, st)   -- `if not self.values` (empty set is falsy)
        | some vs =>
            match anyInValues (rev.getClaims prop) vs with
            | .error e => .error e
            | .ok b => .ok (b, st)
  | .conflictsWith prop values =>
      if (rev.getClaims prop).isEmpty then .ok (true, st)
      else match values with
        | none => .ok (false, st)
        | some [] => .ok (false, st)
        | some vs =>
            match anyInValues (rev.getClaims prop) vs with
            | .error e => .error e
            | .ok b => .ok (!b, st)
  | .labelInLanguage langs =>
      .ok (rev.labels.any (fun l => langs.contains l), st)
  | .descriptionInLanguage langs =>
      .ok (rev.descriptions.any (fun l => langs.contains l), st)
  | _ => .error (.pyError "ClaimConstraintType has no satisfied")

/-! The constraints store (src/evaluator.py `ConstraintsStore`). -/

/-- The `val_to_relation` mapping of `load_constraints`. -/
def valToRelation (id : String) : Option (List String) :=
  if id = "Q21503252" then some ["P31"]
  else if id = "Q21514624" then some ["P279"]
  else if id = "Q30208840" then some ["P31", "P279"]
  else none

/-- `ConstraintsStore._get_pv_constraint`: first P2306 qualifier with a truthy
target selects the related property; P2305 (when present) the value set. -/
def pvConstraintGo (mk : String → Option (List String) → CType) (p2305 : List Qual) :
    List Qual → Except EvalErr (Option CType)
  | [] => .ok none
  | qp :: rest =>
      match qp.target with
      | none => pvConstraintGo mk p2305 rest
      | some v =>
          if !v.truthy then pvConstraintGo mk p2305 rest
          else match v with
            | .item pid =>
                if p2305.isEmpty then .ok (some (mk pid none))
                else (getValuesQ p2305).map (fun vals => some (mk pid (some vals)))
            | _ => .error (.pyError "get_pv_constraint: target has no getID")

/-- Format branch (Q21502404): first truthy P1793 target, regex compiled by
the collaborator; `re.error` is swallowed (constraint dropped). -/
def formatFirst (env : Env) : List Qual → Except EvalErr (Option CType)
  | [] => .ok none
  | q :: rest =>
      match q.target with
      | none => formatFirst env rest
      | some v =>
          if !v.truthy then formatFirst env rest
          else match v with
            | .strv s =>
                match env.compileRegex s with
                | some f => .ok (some (.format f))
                | none => .ok none
            | _ => .error (.pyError "re.compile of a non-string")

/-- CommonsLink branch: `str(qual.getTarget())` of the first P2307 qualifier
(`str(None)` is the string None), empty when no qualifier; P2307 is a
string-typed property. -/
def commonsPfx : List Qual → Except EvalErr String
  | [] => .ok ""
  | q :: _ =>
      match q.target with
      | none => .ok "None"
      | some (.strv s) => .ok s
      | some _ => .error (.pyError "str() of unexpected P2307 target")

/-- Inverse branch (Q21510855): first truthy P2306 target id. -/
def inverseFirst : List Qual → Except EvalErr (Option CType)
  | [] => .ok none
  | q :: rest =>
      match q.target with
      | none => inverseFirst rest
      | some v =>
          if !v.truthy then inverseFirst rest
          else match v with
            | .item id => .ok (some (.inverse id))
            | _ => .error (.pyError "inverse: target has no getID")

/-- Quantity bound of the Q21510860 / first zip branch: truthy target's
`.amount` (a quantity), else None. -/
def rangeAmount (q : Qual) : Except EvalErr (Option ℚ) :=
  match q.target with
  | none => .ok none
  | some v =>
      if !v.truthy then .ok none
      else match v with
        | .quantity wq => .ok (some wq.amount)
        | _ => .error (.pyError ".amount of a non-quantity")

def quantityRangeFirst : List (Qual × Qual) → Except EvalErr (Option CType)
  | [] => .ok none
  | (qlo, qhi) :: _ =>
      match rangeAmount qlo with
      | .error e => .error e
      | .ok lo =>
          match rangeAmount qhi with
          | .error e => .error e
          | .ok hi => .ok (some (.quantityRange lo hi))

/-- `pywikibot.WbTime.fromTimestamp(now)`: second precision. -/
def wbTimeFromNow (t : WbTime) : WbTime :=
  { t with precision := 14 }

/-- Time bound of the Q21510860 / second zip branch: novalue is open,
somevalue is now, otherwise the normalized time target. -/
def rangeTime (env : Env) (q : Qual) : Except EvalErr (Option WbTime) :=
  match q.snaktype with
  | .novalue => .ok none
  | .somevalue => .ok (some (wbTimeFromNow env.nowTime))
  | .value =>
      match q.target with
      | some (.time t) => .ok (some t.normalize)
      | _ => .error (.pyError ".normalize of a non-time")

def timeRangeFirst (env : Env) : List (Qual × Qual) → Except EvalErr (Option CType)
  | [] => .ok none
  | (qlo, qhi) :: _ =>
      match rangeTime env qlo with
      | .error e => .error e
      | .ok lo =>
          match rangeTime env qhi with
          | .error e => .error e
          | .ok hi => .ok (some (.timeRange lo hi))

/-- DifferenceWithinRange branch (Q21510854): only the first
(P2306, P2313, P2312) triple is examined (the break is unconditional). -/
def dwrFirst : List (Qual × Qual × Qual) → Except EvalErr (Option CType)
  | [] => .ok none
  | (qo, qlo, qhi) :: _ =>
      match qo.target with
      | none => .ok none
      | some v =>
          if !v.truthy then .ok none
          else if qlo.snaktype = .somevalue || qhi.snaktype = .somevalue then .ok none
          else match v with
            | .item oid =>
                let getQ : Qual → Except EvalErr (Option WbQuantity) := fun q =>
                  match q.target with
                  | none => .ok none
                  | some (.quantity wq) => .ok (some wq)
                  | some _ => .error (.pyError "DWR bound is not a quantity")
                match getQ qlo with
                | .error e => .error e
                | .ok lo =>
                    match getQ qhi with
                    | .error e => .error e
                    | .ok hi => .ok (some (.differenceWithinRange oid lo hi))
            | _ => .error (.pyError "DWR: target has no getID")

/-- First P2309 qualifier whose truthy target id is in `val_to_relation`. -/
def relationFirst : List Qual → Except EvalErr (Option (List String))
  | [] => .ok none
  | q :: rest =>
      match q.target with
      | none => relationFirst rest
      | some v =>
          if !v.truthy then relationFirst rest
          else match v with
            | .item id =>
                match valToRelation id with
                | some rel => .ok (some rel)
                | none => relationFirst rest
            | _ => .error (.pyError "relation: target has no getID")

/-- LabelInLanguage / DescriptionInLanguage branch: the truthy P424 targets
(language-code strings). -/
def p424Langs (quals : List Qual) : Except EvalErr (List String) :=
  quals.foldlM (fun acc q =>
    match q.target with
    | none => .ok acc
    | some v =>
        if !v.truthy then .ok acc
        else match v with
          | .strv s => .ok (if acc.contains s then acc else acc ++ [s])
          | _ => Except.error (.pyError "unexpected P424 target")) []

/-- PropertyScope branch: the P5314 values mapped to scopes. -/
def p5314Scopes (quals : List Qual) : Except EvalErr (Finset Scope) :=
  quals.foldlM (fun acc q =>
    match q.target with
    | none => .ok acc
    | some v =>
        if !v.truthy then .ok acc
        else match v with
          | .item id =>
              if id = "Q54828448" then .ok (insert Scope.MAIN acc)
              else if id = "Q54828449" then .ok (insert Scope.QUALIFIER acc)
              else if id = "Q54828450" then .ok (insert Scope.REFERENCE acc)
              else .ok acc
          | _ => Except.error (.pyError "P5314: target has no getID")) ∅

/-- P2316 status: first truthy target that is the mandatory / suggestion
item wins, default REGULAR. -/
def parseStatus : List Qual → Except EvalErr Status
  | [] => .ok .REGULAR
  | q :: rest =>
      match q.target with
      | none => parseStatus rest
      | some v =>
          if !v.truthy then parseStatus rest
          else match v with
            | .item id =>
                if id = "Q21502408" then .ok .MANDATORY
                else if id = "Q62026391" then .ok .SUGGESTION
                else parseStatus rest
            | _ => .error (.pyError "P2316: target has no getID")

/-- P4680 constraint scopes (empty when no recognized value). -/
def parseScopes (quals : List Qual) : Except EvalErr (Finset Scope) :=
  quals.foldlM (fun acc q =>
    match q.target with
    | none => .ok acc
    | some v =>
        if !v.truthy then .ok acc
        else match v with
          | .item id =>
              if id = "Q46466787" then .ok (insert Scope.MAIN acc)
              else if id = "Q46466783" then .ok (insert Scope.QUALIFIER acc)
              else if id = "Q46466805" then .ok (insert Scope.REFERENCE acc)
              else .ok acc
          | _ => Except.error (.pyError "P4680: target has no getID")) ∅

/-- The variant dispatch of `load_constraints` for one non-deprecated P2302
declaration with the truthy target id `tid`; returns the predicate (None when
the declaration is unrecognized or incomplete) and the store with any cache
slots the ValueType / SubjectType constructors allocated. -/
def parseDispatch (env : Env) (tid : String) (qs : List (String × List Qual))
    (st : Store) : Except EvalErr (Option CType × Store) :=
  if (tid = "Q21510859" || tid = "Q52558054" || tid = "Q21514353")
      && !(alistGet qs "P2305").isEmpty then
    match getValuesQ (alistGet qs "P2305") with
    | .error e => .error e
    | .ok values =>
        if tid = "Q21510859" then .ok (some (.oneOf values), st)
        else if tid = "Q52558054" then .ok (some (.noneOf values), st)
        else .ok (some (.units values), st)
  else if tid = "Q108139345" || tid = "Q111204896" then
    match p424Langs (alistGet qs "P424") with
    | .error e => .error e
    | .ok values =>
        if values.isEmpty then .ok (none, st)
        else if tid = "Q108139345" then .ok (some (.labelInLanguage values), st)
        else .ok (some (.descriptionInLanguage values), st)
  else if tid = "Q21503247" then
    (pvConstraintGo CType.itemRequires (alistGet qs "P2305") (alistGet qs "P2306")).map
      (fun c => (c, st))
  else if tid = "Q21510864" then
    (pvConstraintGo CType.valueRequires (alistGet qs "P2305") (alistGet qs "P2306")).map
      (fun c => (c, st))
  else if tid = "Q21502838" then
    (pvConstraintGo CType.conflictsWith (alistGet qs "P2305") (alistGet qs "P2306")).map
      (fun c => (c, st))
  else if tid = "Q21502404" then
    (formatFirst env (alistGet qs "P1793")).map (fun c => (c, st))
  else if tid = "Q21510852" then
    match commonsPfx (alistGet qs "P2307") with
    | .error e => .error e
    | .ok pfx =>
        match env.lookupNamespace pfx with
        | some ns => .ok (some (.commonsLink ns), st)
        | none => .ok (none, st)
  else if tid = "Q51723761" then .ok (some .noBounds, st)
  else if tid = "Q52848401" then .ok (some .integer, st)
  else if tid = "Q21510862" then .ok (some .symmetric, st)
  else if tid = "Q21510855" then
    (inverseFirst (alistGet qs "P2306")).map (fun c => (c, st))
  else if tid = "Q21510860" then
    match quantityRangeFirst ((alistGet qs "P2313").zip (alistGet qs "P2312")) with
    | .error e => .error e
    | .ok c1 =>
        match timeRangeFirst env ((alistGet qs "P2310").zip (alistGet qs "P2311")) with
        | .error e => .error e
        | .ok (some c2) => .ok (some c2, st)
        | .ok none => .ok (c1, st)
  else if tid = "Q21510854" then
    (dwrFirst ((alistGet qs "P2306").zip
      ((alistGet qs "P2313").zip (alistGet qs "P2312")))).map (fun c => (c, st))
  else if tid = "Q21510865" then
    match getValuesQ (alistGet qs "P2308") with
    | .error e => .error e
    | .ok classes =>
        if classes.isEmpty then .ok (none, st)
        else
          match relationFirst (alistGet qs "P2309") with
          | .error e => .error e
          | .ok (some rel) =>
              .ok (some (.valueType rel classes st.nextCid),
                { st with nextCid := st.nextCid + 1 })
          | .ok none => .ok (none, st)
  else if tid = "Q21503250" then
    match getValuesQ (alistGet qs "P2308") with
    | .error e => .error e
    | .ok classes =>
        if classes.isEmpty then .ok (none, st)
        else
          match relationFirst (alistGet qs "P2309") with
          | .error e => .error e
          | .ok (some rel) =>
              .ok (some (.subjectType rel classes st.nextCid),
                { st with nextCid := st.nextCid + 1 })
          | .ok none => .ok (none, st)
  else if tid = "Q21510851" || tid = "Q21510856" then
    match getValuesQ (alistGet qs "P2306") with
    | .error e => .error e
    | .ok values =>
        if values.isEmpty then .ok (none, st)
        else if tid = "Q21510851" then .ok (some (.qualifiersC values), st)
        else .ok (some (.requiredQualifiers values), st)
  else if tid = "Q53869507" then
    match p5314Scopes (alistGet qs "P5314") with
    | .error e => .error e
    | .ok ps =>
        if ps = ∅ then .ok (none, st) else .ok (some (.propertyScope ps), st)
  else .ok (none, st)

/-- One P2302 declaration of `load_constraints`: deprecated rank and falsy
targets are skipped; a recognized predicate is packaged with its parsed
status and scopes (defaulting to the full scope set). -/
def parseDeclaration (env : Env) (pageId : String) (decl : Claim) (st : Store) :
    Except EvalErr (Option Constraint × Store) :=
  if decl.rank = .deprec then .ok (none, st)
  else
    match decl.target with
    | none => .ok (none, st)
    | some v =>
        if !v.truthy then .ok (none, st)
        else match v with
          | .item tid =>
              match parseDispatch env tid decl.qualifiers st with
              | .error e => .error e
              | .ok (none, st2) => .ok (none, st2)
              | .ok (some ct, st2) =>
                  match parseStatus (alistGet decl.qualifiers "P2316") with
                  | .error e => .error e
                  | .ok status =>
                      match parseScopes (alistGet decl.qualifiers "P4680") with
                      | .error e => .error e
                      | .ok scopes0 =>
                          let scopes := if scopes0 = ∅ then allScopes else scopes0
                          .ok (some ⟨pageId, some decl.snak, ct, status, scopes⟩, st2)
          | _ => .error (.pyError "P2302: target has no getID")

def parseDecls (env : Env) (pageId : String) :
    List Claim → Store → Except EvalErr (List Constraint × Store)
  | [], st => .ok ([], st)
  | decl :: rest, st =>
      match parseDeclaration env pageId decl st with
      | .error e => .error e
      | .ok (none, st2) => parseDecls env pageId rest st2
      | .ok (some c, st2) =>
          match parseDecls env pageId rest st2 with
          | .error e => .error e
          | .ok (cs, st3) => .ok (c :: cs, st3)

def Store.setCache (st : Store) (key : String) (cs : List Constraint) : Store :=
  { st with cache := (st.cache.filter (fun kv => kv.1 != key)) ++ [(key, cs)] }

/-- `ConstraintsStore.load_constraints(page)`: parse the P2302 declarations,
then synthesize the fixed per-property constraints (always HasValidReference;
NoLinksToDisambiguation and NoSelfLink for item-typed properties; LargeChange
at SUGGESTION for quantity-typed ones), and cache the list. -/
def loadConstraints (env : Env) (page : PropPage) (st : Store) :
    Except EvalErr (List Constraint × Store) :=
  match parseDecls env page.id (alistGet page.claims "P2302") st with
  | .error e => .error e
  | .ok (parsed, st2) =>
      let out := parsed ++ [⟨page.id, none, .hasValidReference, .REGULAR, {Scope.MAIN}⟩]
      let out := if page.ptype = "wikibase-item" then
          out ++ [⟨page.id, none, .noLinksToDisambiguation, .REGULAR, allScopes⟩,
                  ⟨page.id, none, .noSelfLink, .REGULAR, allScopes⟩]
        else out
      let out := if page.ptype = "quantity" then
          out ++ [⟨page.id, none, .largeChange, .SUGGESTION, allScopes⟩]
        else out
      .ok (out, st2.setCache page.id out)

/-- The two filters of `get_constraints`: `may_check(scope)` when a scope is
given, then the `isinstance` type filter. -/
def filterConstraints (tf : Option TypeFilter) (sc : Option Scope)
    (out : List Constraint) : List Constraint :=
  let out := match sc with
    | some s => out.filter (fun c => c.mayCheck s)
    | none => out
  match tf with
  | some f => out.filter (fun c => f.matches c.ctype)
  | none => out

/-- `ConstraintsStore.get_constraints(prop, type=tf, scope=sc)`. -/
def getConstraints (env : Env) (tf : Option TypeFilter) (sc : Option Scope)
    (prop : String) (st : Store) : Except EvalErr (List Constraint × Store) :=
  if (st.cache.map Prod.fst).contains prop then
    .ok (filterConstraints tf sc (alistGet st.cache prop), st)
  else
    match loadConstraints env (env.propPage prop) st with
    | .error e => .error e
    | .ok (_, st2) => .ok (filterConstraints tf sc (alistGet st2.cache prop), st2)

/-- `ConstraintsStore.purge(prop)`. -/
def Store.purge (st : Store) (prop : String) : Store :=
  { st with cache := st.cache.filter (fun kv => kv.1 != prop) }

/-! Scoring and dispatch (src/base.py defaults, src/custom.py overrides,
src/evaluator.py `Constraint` handlers). -/

/-- The evaluation context as the evaluator constructs and consumes it:
`(old_rev, new_rev, old_claim, new_claim)`. -/
structure Context where
  old_rev : Entity
  new_rev : Entity
  old_claim : Option Claim
  new_claim : Option Claim

/-- `Context.prop`: the property of whichever side's claim is present
(never read on the entity-level context where both are absent). -/
def Context.propD (ctx : Context) : String :=
  match ctx.old_claim with
  | some c => c.prop
  | none =>
      match ctx.new_claim with
      | some c => c.prop
      | none => ""

/-- `HasValidReference._is_valid_reference(reference)`: some property of the
block outside the metadata blacklist whose PropertyScope constraints all
allow REFERENCE. -/
def isValidReference (env : Env) : List String → Store → Except EvalErr (Bool × Store)
  | [], st => .ok (false, st)
  | prop :: rest, st =>
      if ["P143", "P813", "P887", "P3452", "P4656"].contains prop then
        isValidReference env rest st
      else
        match getConstraints env (some .propertyScopeF) none prop st with
        | .error e => .error e
        | .ok (cs, st2) =>
            if cs.all (fun c =>
                match c.ctype with
                | .propertyScope vals => decide (Scope.REFERENCE ∈ vals)
                | _ => true) then .ok (true, st2)
            else isValidReference env rest st2

/-- `HasValidReference._count_valid_references(claim)`. -/
def countValidRefs (env : Env) : List (List String) → Int → Store →
    Except EvalErr (Int × Store)
  | [], acc, st => .ok (acc, st)
  | ref :: rest, acc, st =>
      ebind (isValidReference env ref st) fun b st2 =>
        countValidRefs env rest (acc + if b then 1 else 0) st2

/-- `LargeChange.score_for_update`: rounded absolute difference of the decimal
log10 magnitudes; the proved property (a non-negative integer) does not
depend on the rounding mode of `to_integral_value`. -/
def largeChangeUpdate (env : Env) (oc nc : Claim) : Int :=
  match oc.target, nc.target with
  | some (.quantity qo), some (.quantity qn) =>
      if qo.amount ≠ 0 ∧ qn.amount ≠ 0 then
        round (abs (env.logTen (abs qo.amount) - env.logTen (abs qn.amount)))
      else 0
  | _, _ => 0

/-- `ClaimConstraintType.score_for_addition` default:
`int(violates(ctx.new.claim))`.  Dispatching with an absent claim is modelled
as an error (`violates(None)` raises for every predicate that reads its
argument; the evaluator never does it). -/
def claimAddDefault (env : Env) (ct : CType) (ctx : Context) (st : Store) :
    Except EvalErr (Int × Store) :=
  match ctx.new_claim with
  | none => .error (.pyError "violates of None")
  | some c =>
      ebind (violatesM env ct c st) fun v st2 =>
        .ok ((if v then 1 else 0 : Int), st2)

/-- `ClaimConstraintType.score_for_removal` default: `-int(violates(old))`. -/
def claimRemDefault (env : Env) (ct : CType) (ctx : Context) (st : Store) :
    Except EvalErr (Int × Store) :=
  match ctx.old_claim with
  | none => .error (.pyError "violates of None")
  | some c =>
      ebind (violatesM env ct c st) fun v st2 =>
        .ok ((if v then -1 else 0 : Int), st2)

/-- `ClaimConstraintType.score_for_update` default:
`int(violates(new)) - int(violates(old))`, new side evaluated first. -/
def claimUpdDefault (env : Env) (ct : CType) (ctx : Context) (st : Store) :
    Except EvalErr (Int × Store) :=
  match ctx.old_claim, ctx.new_claim with
  | some oc, some nc =>
      ebind (violatesM env ct nc st) fun vn st2 =>
        ebind (violatesM env ct oc st2) fun vo st3 =>
          .ok (((if vn then 1 else 0) - (if vo then 1 else 0) : Int), st3)
  | _, _ => .error (.pyError "violates of None")

/-- `ItemConstraintType.score_for_addition`: `int(not satisfied(new_rev))`. -/
def itemAddDefault (env : Env) (ct : CType) (ctx : Context) (st : Store) :
    Except EvalErr (Int × Store) :=
  ebind (satisfiedM env ct ctx.new_rev st) fun s st2 =>
    .ok ((if s then 0 else 1 : Int), st2)

/-- `ItemConstraintType.score_for_removal`: `-int(not satisfied(old_rev))`. -/
def itemRemDefault (env : Env) (ct : CType) (ctx : Context) (st : Store) :
    Except EvalErr (Int × Store) :=
  ebind (satisfiedM env ct ctx.old_rev st) fun s st2 =>
    .ok ((if s then 0 else -1 : Int), st2)

/-- `ItemConstraintType.score_for_update`, new side evaluated first. -/
def itemUpdDefault (env : Env) (ct : CType) (ctx : Context) (st : Store) :
    Except EvalErr (Int × Store) :=
  ebind (satisfiedM env ct ctx.new_rev st) fun sn st2 =>
    ebind (satisfiedM env ct ctx.old_rev st2) fun so st3 =>
      .ok (((if sn then 0 else 1) - (if so then 0 else 1) : Int), st3)

/-- `score_for_addition` dispatch: the HasValidReference and LargeChange
overrides, the ItemConstraintType default for entity-level predicates, the
ClaimConstraintType default for everything else. -/
def scoreForAdditionM (env : Env) (ct : CType) (ctx : Context) (st : Store) :
    Except EvalErr (Int × Store) :=
  match ct with
  | .hasValidReference =>
      match ctx.new_claim with
      | none => .error (.pyError "sources of None")
      | some c =>
          ebind (countValidRefs env c.sources 0 st) fun n st2 => .ok (-n, st2)
  | .largeChange => .ok (0, st)
  | .subjectType _ _ _ | .itemRequires _ _ | .conflictsWith _ _
  | .labelInLanguage _ | .descriptionInLanguage _ => itemAddDefault env ct ctx st
  | _ => claimAddDefault env ct ctx st

/-- `score_for_removal` dispatch. -/
def scoreForRemovalM (env : Env) (ct : CType) (ctx : Context) (st : Store) :
    Except EvalErr (Int × Store) :=
  match ct with
  | .hasValidReference =>
      match ctx.old_claim with
      | none => .error (.pyError "sources of None")
      | some c => countValidRefs env c.sources 0 st
  | .largeChange => .ok (0, st)
  | .subjectType _ _ _ | .itemRequires _ _ | .conflictsWith _ _
  | .labelInLanguage _ | .descriptionInLanguage _ => itemRemDefault env ct ctx st
  | _ => claimRemDefault env ct ctx st

/-- `score_for_update` dispatch with the PropertyScope, HasValidReference and
LargeChange overrides. -/
def scoreForUpdateM (env : Env) (ct : CType) (ctx : Context) (st : Store) :
    Except EvalErr (Int × Store) :=
  match ct with
  | .propertyScope _ => .ok (0, st)
  | .hasValidReference =>
      match ctx.old_claim, ctx.new_claim with
      | some oc, some nc =>
          ebind (countValidRefs env oc.sources 0 st) fun old_n st2 =>
            if decide (cmpKey oc ≠ cmpKey nc) && decide (oc.sources = nc.sources) then
              .ok (old_n, st2)
            else
              ebind (countValidRefs env nc.sources 0 st2) fun new_n st3 =>
                .ok (old_n - new_n, st3)
      | _, _ => .error (.pyError "cmp_key of None")
  | .largeChange =>
      match ctx.old_claim, ctx.new_claim with
      | some oc, some nc => .ok (largeChangeUpdate env oc nc, st)
      | _, _ => .error (.pyError "getTarget of None")
  | .subjectType _ _ _ | .itemRequires _ _ | .conflictsWith _ _
  | .labelInLanguage _ | .descriptionInLanguage _ => itemUpdDefault env ct ctx st
  | _ => claimUpdDefault env ct ctx st

/-- `Constraint.handle_addition`: SUGGESTION clamps the score to `min(0, s)`. -/
def handleAdditionM (env : Env) (c : Constraint) (ctx : Context) (r : Result)
    (st : Store) : Except EvalErr (Result × Store) :=
  ebind (scoreForAdditionM env c.ctype ctx st) fun s st2 =>
    let s := if c.status = .SUGGESTION then min 0 s else s
    .ok (r.add c s, st2)

/-- `Constraint.handle_removal`: the raw score, no status weighting. -/
def handleRemovalM (env : Env) (c : Constraint) (ctx : Context) (r : Result)
    (st : Store) : Except EvalErr (Result × Store) :=
  ebind (scoreForRemovalM env c.ctype ctx st) fun s st2 => .ok (r.add c s, st2)

/-- `Constraint.handle_update`: the score multiplied by the status weight. -/
def handleUpdateM (env : Env) (c : Constraint) (ctx : Context) (r : Result)
    (st : Store) : Except EvalErr (Result × Store) :=
  ebind (scoreForUpdateM env c.ctype ctx st) fun s st2 =>
    .ok (r.add c (s * c.status.toInt), st2)

/-- Sequential dispatch of a handler over a list. -/
def foldHandler {α : Type} (h : α → Result → Store → Except EvalErr (Result × Store)) :
    List α → Result → Store → Except EvalErr (Result × Store)
  | [], r, st => .ok (r, st)
  | x :: xs, r, st => ebind (h x r st) fun r2 st2 => foldHandler h xs r2 st2

/-! `get_item_constraints` (src/evaluator.py lines 384-428). -/

/-- The (type, constraint item, required changed props) tuples iterated by
`get_item_constraints`. -/
def itemTuples : List (TypeFilter × String × Option (List String)) :=
  [(.itemRequiresF, "Q21503247", none),
   (.conflictsWithF, "Q21502838", none),
   (.subjectTypeF, "Q21510865", some ["P31", "P279"]),
   (.labelInLanguageF, "Q108139345", none),
   (.descriptionInLanguageF, "Q111204896", none)]

/-- The bulk-discovery SPARQL query of `get_item_constraints`. -/
def discoveryQuery (hasRequire : Bool) (left changed : List String)
    (itemId : String) : String :=
  let base := "SELECT DISTINCT ?prop \x7b VALUES ?prop \x7b " ++ joinWd left ++ " \x7d ."
  if hasRequire then
    base ++ " ?prop wdt:P2302 wd:" ++ itemId ++ " \x7d"
  else
    base ++ " VALUES ?changed \x7b " ++ joinWd changed ++
      " \x7d . ?prop p:P2302 [ ps:P2302 wd:" ++ itemId ++ "; pq:P2306 ?changed ] \x7d"

def constraintsFold (env : Env) (tf : TypeFilter) :
    List String → List Constraint → Store → Except EvalErr (List Constraint × Store)
  | [], acc, st => .ok (acc, st)
  | p :: ps, acc, st =>
      match getConstraints env (some tf) none p st with
      | .error e => .error e
      | .ok (cs, st2) => constraintsFold env tf ps (acc ++ cs) st2

/-- The loaded/left split of `get_item_constraints`: properties already in
the store cache versus the rest; a remainder smaller than 5 is merged into
the loaded (eagerly loaded) part. -/
def cachedSplit (st : Store) (props : List String) : List String × List String :=
  let loaded := props.filter (fun p => (st.cache.map Prod.fst).contains p)
  let leftAll := props.filter (fun p => !((st.cache.map Prod.fst).contains p))
  if leftAll.length < 5 then (loaded ++ leftAll, []) else (loaded, leftAll)

/-- One tuple of `get_item_constraints`: yield from already-loaded properties
(small remainders are loaded eagerly), then run the discovery query for the
rest; a network or server error of the query is caught and logged and that
query's constraints are skipped. -/
def itemConstraintsForTuple (env : Env) (props changed : List String)
    (tf : TypeFilter) (itemId : String) (require : Option (List String))
    (st : Store) : Except EvalErr (List Constraint × Store) :=
  if (match require with
      | some r => !(changed.any (fun c => r.contains c))
      | none => false) then .ok ([], st)
  else
    let loaded2 := (cachedSplit st props).1
    let left := (cachedSplit st props).2
    match constraintsFold env tf loaded2 [] st with
    | .error e => .error e
    | .ok (acc, st2) =>
        if left.isEmpty then .ok (acc, st2)
        else
          let q := discoveryQuery require.isSome left changed itemId
          match env.sparqlGetItems q "prop" with
          | .error _ => .ok (acc, st2)
          | .ok items =>
              match constraintsFold env tf items [] st2 with
              | .error (.sparqlFail _) => .ok (acc, st2)
              | .error e => .error e
              | .ok (acc2, st3) => .ok (acc ++ acc2, st3)

def itemConstraintsGo (env : Env) (props changed : List String) :
    List (TypeFilter × String × Option (List String)) → List Constraint → Store →
    Except EvalErr (List Constraint × Store)
  | [], acc, st => .ok (acc, st)
  | (tf, itemId, require) :: rest, acc, st =>
      match itemConstraintsForTuple env props changed tf itemId require st with
      | .error e => .error e
      | .ok (cs, st2) => itemConstraintsGo env props changed rest (acc ++ cs) st2

/-- `ConstraintsStore.get_item_constraints(props, changed)`. -/
def getItemConstraints (env : Env) (props changed : List String) (st : Store) :
    Except EvalErr (List Constraint × Store) :=
  itemConstraintsGo env props changed itemTuples [] st

/-! The diff engine and evaluator (src/evaluator.py `ConstraintEvaluator`). -/

/-- `index_by_id(claims)[key]`: dict comprehension, the last claim with a
given snak id wins. -/
def indexById (claims : List Claim) (key : String) : Option Claim :=
  claims.reverse.find? (fun c => c.snak == key)

def idKeys (claims : List Claim) : List String :=
  (claims.map Claim.snak).eraseDups

/-- Union of key sets in first-occurrence order. -/
def unionKeys (a b : List String) : List String :=
  (a ++ b).eraseDups

/-- `claim_differences` restricted to one property. -/
def claimDiffForProp (old new : Entity) (prop : String) :
    List (Option Claim × Option Claim) :=
  let oldCs := old.getClaims prop
  let newCs := new.getClaims prop
  (unionKeys (idKeys oldCs) (idKeys newCs)).filterMap (fun key =>
    match indexById oldCs key, indexById newCs key with
    | some oc, some nc =>
        if sameAs nc oc true false false then none else some (some oc, some nc)
    | some oc, none => some (some oc, none)
    | none, some nc => some (none, some nc)
    | none, none => none)

/-- `ConstraintEvaluator.claim_differences(old, new)`. -/
def claimDifferences (old new : Entity) : List (Option Claim × Option Claim) :=
  (unionKeys (alistKeys old.claims) (alistKeys new.claims)).flatMap
    (claimDiffForProp old new)

/-- The nested matching loops of lines 513-520, walking the old qualifiers
with their index: for each old index the first new index with equal `cmp_key`
is recorded (the inner break), whether or not that new index was recorded
before. -/
def qualMatchGo (news : List Qual) :
    List Qual → Nat → List Nat × List Nat → List Nat × List Nat
  | [], _, acc => acc
  | q :: rest, i, acc =>
      match news.findIdx? (fun o => decide (cmpKeyQ q = cmpKeyQ o)) with
      | some j =>
          qualMatchGo news rest (i + 1)
            (acc.1 ++ [i], if acc.2.contains j then acc.2 else acc.2 ++ [j])
      | none => qualMatchGo news rest (i + 1) acc

/-- `(old_matched, new_matched)` of the qualifier pairing. -/
def qualMatch (olds news : List Qual) : List Nat × List Nat :=
  qualMatchGo news olds 0 ([], [])

/-- The `for i, qual in enumerate(...): if i not in matched` collection
loops of lines 522-527. -/
def unmatchedGo (matched : List Nat) : List Qual → Nat → List Qual
  | [], _ => []
  | q :: rest, i =>
      if matched.contains i then unmatchedGo matched rest (i + 1)
      else q :: unmatchedGo matched rest (i + 1)

/-- `(added, removed)` for one qualifier property inside an updated claim
pair (src/evaluator.py lines 506-527). -/
def qualDiff (olds news : List Qual) : List Qual × List Qual :=
  if olds.isEmpty then (news, [])
  else if news.isEmpty then ([], olds)
  else
    let m := qualMatch olds news
    (unmatchedGo m.2 news 0, unmatchedGo m.1 olds 0)

inductive QualOp where
  | update (oldQ newQ : Qual)
  | addition (q : Qual)
  | removal (q : Qual)

/-- The dispatch pattern of lines 535-551: a lone removed/added pair becomes
one update, otherwise additions then removals. -/
def dispatchQualOps (added removed : List Qual) : List QualOp :=
  if added.length = 1 ∧ removed.length = 1 then
    (removed.zip added).map (fun p => .update p.1 p.2)
  else (added.map .addition) ++ (removed.map .removal)

def qualAdditionFold (env : Env) (ctx : Context) :
    List (String × List Qual) → Result → Store → Except EvalErr (Result × Store)
  | [], r, st => .ok (r, st)
  | (prop, values) :: rest, r, st =>
      ebind (getConstraints env (some .claimLevel) (some .QUALIFIER) prop st)
        (fun cs st2 =>
          ebind (foldHandler (fun c r st =>
              foldHandler (fun (qual : Qual) r st =>
                handleAdditionM env c ⟨ctx.old_rev, ctx.new_rev, none, some qual.toClaim⟩ r st)
                values r st) cs r st2)
            (fun r2 st3 => qualAdditionFold env ctx rest r2 st3))

def qualUpdateFold (env : Env) (ctx : Context) (oc nc : Claim) :
    List String → Result → Store → Except EvalErr (Result × Store)
  | [], r, st => .ok (r, st)
  | key :: rest, r, st =>
      let olds := alistGet oc.qualifiers key
      let news := alistGet nc.qualifiers key
      let (added, removed) := qualDiff olds news
      if added.isEmpty && removed.isEmpty then qualUpdateFold env ctx oc nc rest r st
      else
        ebind (getConstraints env (some .claimLevel) (some .QUALIFIER) key st)
          (fun cs st2 =>
            ebind (foldHandler (fun c r st =>
                foldHandler (fun (op : QualOp) r st =>
                  match op with
                  | .update qr qa =>
                      handleUpdateM env c
                        ⟨ctx.old_rev, ctx.new_rev, some qr.toClaim, some qa.toClaim⟩ r st
                  | .addition q =>
                      handleAdditionM env c
                        ⟨ctx.old_rev, ctx.new_rev, none, some q.toClaim⟩ r st
                  | .removal q =>
                      handleRemovalM env c
                        ⟨ctx.old_rev, ctx.new_rev, some q.toClaim, none⟩ r st)
                  (dispatchQualOps added removed) r st) cs r st2)
              (fun r2 st3 => qualUpdateFold env ctx oc nc rest r2 st3))

/-- `ConstraintEvaluator.evaluate_atomic_change(context, result)`. -/
def evaluateAtomicChange (env : Env) (ctx : Context) (r : Result) (st : Store) :
    Except EvalErr (Result × Store) :=
  match ctx.new_claim with
  | none =>
      ebind (getConstraints env (some .claimLevel) (some .MAIN) ctx.propD st)
        (fun cs st2 => foldHandler (fun c r st => handleRemovalM env c ctx r st) cs r st2)
  | some nc =>
      match ctx.old_claim with
      | none =>
          ebind (getConstraints env (some .claimLevel) (some .MAIN) ctx.propD st)
            (fun cs st2 =>
              ebind (foldHandler (fun c r st => handleAdditionM env c ctx r st) cs r st2)
                (fun r2 st3 => qualAdditionFold env ctx nc.qualifiers r2 st3))
      | some oc =>
          ebind (getConstraints env (some .claimLevel) (some .MAIN) ctx.propD st)
            (fun cs st2 =>
              ebind (foldHandler (fun c r st =>
                  if !c.ctype.valueChangeNeeded || decide (cmpKey oc ≠ cmpKey nc) then
                    handleUpdateM env c ctx r st
                  else .ok (r, st)) cs r st2)
                (fun r2 st3 =>
                  qualUpdateFold env ctx oc nc
                    (unionKeys (alistKeys oc.qualifiers) (alistKeys nc.qualifiers)) r2 st3))

/-- The two skip conditions of `evaluate_change` when a `current` revision is
supplied (lines 566-571): the old claim is still present in current, or the
atom is a pure addition whose property is absent from current. -/
def skipAtom (cur : Entity) (oc nc : Option Claim) : Bool :=
  (match oc with
   | some c => itemHasClaim cur c
   | none => false)
  || (match nc, oc with
      | some c, none => !(cur.hasProp c.prop)
      | _, _ => false)

def atomsFold (env : Env) (old new : Entity) (current : Option Entity) :
    List (Option Claim × Option Claim) → Result → List String → Store →
    Except EvalErr ((Result × List String) × Store)
  | [], r, touched, st => .ok ((r, touched), st)
  | (oc, nc) :: rest, r, touched, st =>
      if (match current with
          | some cur => skipAtom cur oc nc
          | none => false) then
        atomsFold env old new current rest r touched st
      else
        let ctx : Context := ⟨old, new, oc, nc⟩
        ebind (evaluateAtomicChange env ctx r st) fun r2 st2 =>
          let touched := if touched.contains ctx.propD then touched
            else touched ++ [ctx.propD]
          atomsFold env old new current rest r2 touched st2

def listMinus (a b : List String) : List String :=
  a.filter (fun x => !(b.contains x))

def listInter (a b : List String) : List String :=
  a.filter (fun x => b.contains x)

/-- `ConstraintEvaluator.evaluate_change(old_rev, new_rev, current)`. -/
def evaluateChange (env : Env) (old new : Entity) (current : Option Entity)
    (st : Store) : Except EvalErr (Result × Store) :=
  ebind (atomsFold env old new current (claimDifferences old new) Result.empty [] st)
    (fun rt st2 =>
      let r := rt.1
      let touched := rt.2
      let ctxE : Context := ⟨old, new, none, none⟩
      let added0 := listMinus (alistKeys new.claims) (alistKeys old.claims)
      let removed0 := listMinus (alistKeys old.claims) (alistKeys new.claims)
      let added := match current with
        | some cur => listInter added0 (alistKeys cur.claims)
        | none => added0
      let removed := match current with
        | some cur => listMinus removed0 (alistKeys cur.claims)
        | none => removed0
      ebind (foldHandler (fun (p : String) r st =>
          ebind (getConstraints env (some .specifier) none p st) fun cs st2 =>
            foldHandler (fun c r st => handleAdditionM env c ctxE r st) cs r st2)
          added r st2)
        (fun r2 st3 =>
          ebind (foldHandler (fun (p : String) r st =>
              ebind (getConstraints env (some .specifier) none p st) fun cs st2 =>
                foldHandler (fun c r st => handleRemovalM env c ctxE r st) cs r st2)
              removed r2 st3)
            (fun r3 st4 =>
              ebind (getItemConstraints env
                  (listInter (alistKeys old.claims) (alistKeys new.claims)) touched st4)
                (fun ics st5 =>
                  foldHandler (fun c r st => handleUpdateM env c ctxE r st) ics r3 st5))))

/-! `ConstraintEvaluator.evaluate_entity` (src/evaluator.py lines 602-632).
The source uses a single loop variable `constr` for both the outer main-scope
constraint loop and the nested qualifier-constraint loop; the embedding
threads that variable (`cur`) explicitly, so a claim examined after a
qualifier loop ran is tested against the most recent qualifier constraint. -/

def eeQualValuesLoop (env : Env) (cur : Constraint) :
    List Qual → List Constraint → Store → Except EvalErr (List Constraint × Store)
  | [], violated, st => .ok (violated, st)
  | qual :: rest, violated, st =>
      match violatesM env cur.ctype qual.toClaim st with
      | .error e => .error e
      | .ok (v, st2) =>
          eeQualValuesLoop env cur rest (if v then violated ++ [cur] else violated) st2

def eeQcLoop (env : Env) (values : List Qual) :
    List Constraint → List Constraint → Constraint → Store →
    Except EvalErr ((List Constraint × Constraint) × Store)
  | [], violated, cur, st => .ok ((violated, cur), st)
  | qc :: rest, violated, _, st =>
      match eeQualValuesLoop env qc values violated st with
      | .error e => .error e
      | .ok (violated2, st2) => eeQcLoop env values rest violated2 qc st2

def eeQualsOfClaim (env : Env) :
    List (String × List Qual) → List Constraint → Constraint → Store →
    Except EvalErr ((List Constraint × Constraint) × Store)
  | [], violated, cur, st => .ok ((violated, cur), st)
  | (qprop, values) :: rest, violated, cur, st =>
      match getConstraints env (some .claimLevel) (some .QUALIFIER) qprop st with
      | .error e => .error e
      | .ok (qcs, st2) =>
          match eeQcLoop env values qcs violated cur st2 with
          | .error e => .error e
          | .ok ((violated2, cur2), st3) => eeQualsOfClaim env rest violated2 cur2 st3

def eeClaimLoop (env : Env) :
    List Claim → List Constraint → Constraint → Store →
    Except EvalErr ((List Constraint × Constraint) × Store)
  | [], violated, cur, st => .ok ((violated, cur), st)
  | claim :: rest, violated, cur, st =>
      match violatesM env cur.ctype claim st with
      | .error e => .error e
      | .ok (v, st2) =>
          let violated := if v then violated ++ [cur] else violated
          match eeQualsOfClaim env claim.qualifiers violated cur st2 with
          | .error e => .error e
          | .ok ((violated2, cur2), st3) => eeClaimLoop env rest violated2 cur2 st3

def eeMainLoop (env : Env) (claims : List Claim) :
    List Constraint → List Constraint → Store → Except EvalErr (List Constraint × Store)
  | [], violated, st => .ok (violated, st)
  | constr :: rest, violated, st =>
      match eeClaimLoop env claims violated constr st with
      | .error e => .error e
      | .ok ((violated2, _), st2) => eeMainLoop env claims rest violated2 st2

def eePropLoop (env : Env) (entity : Entity) :
    List String → List Constraint → Store → Except EvalErr (List Constraint × Store)
  | [], violated, st => .ok (violated, st)
  | prop :: rest, violated, st =>
      match getConstraints env (some .claimLevel) (some .MAIN) prop st with
      | .error e => .error e
      | .ok (mains, st2) =>
          match eeMainLoop env (entity.getClaims prop) mains violated st2 with
          | .error e => .error e
          | .ok (violated2, st3) => eePropLoop env entity rest violated2 st3

def eeItemLoop (env : Env) (entity : Entity) :
    List Constraint → List Constraint → Store → Except EvalErr (List Constraint × Store)
  | [], violated, st => .ok (violated, st)
  | c :: rest, violated, st =>
      match satisfiedM env c.ctype entity st with
      | .error e => .error e
      | .ok (s, st2) =>
          eeItemLoop env entity rest (if s then violated else violated ++ [c]) st2

/-- `ConstraintEvaluator.evaluate_entity(entity)`. -/
def evaluateEntity (env : Env) (entity : Entity) (st : Store) :
    Except EvalErr (List Constraint × Store) :=
  match eePropLoop env entity (alistKeys entity.claims) [] st with
  | .error e => .error e
  | .ok (violated, st2) =>
      match getItemConstraints env (alistKeys entity.claims) (alistKeys entity.claims) st2 with
      | .error e => .error e
      | .ok (ics, st3) => eeItemLoop env entity ics violated st3

/-! Concrete collaborator fixtures used by the witness and counterexample
theorems below. -/

/-- A benign environment: queries succeed with empty answers, pages exist,
every property page is empty and string-typed. -/
def trivEnv : Env :=
  { sparqlSelectPairs := fun _ => .ok []
    sparqlAsk := fun _ => .ok true
    sparqlGetItems := fun _ _ => .ok []
    getEntity := fun _ => .missing
    redirectFuel := 10
    pageExists := fun _ _ => true
    stringToPage := fun ns s => some (ns, s)
    httpOk := fun _ => true
    propPage := fun p => ⟨p, "string", []⟩
    entityExists := fun _ => true
    logTen := fun _ => 0
    nowTime := ⟨2026, 1, 1, 0, 0, 0, 11⟩
    lookupNamespace := fun _ => none
    compileRegex := fun _ => some (fun _ => true) }

/-- Environment whose bulk-discovery calls fail with a network error. -/
def errItemsEnv : Env :=
  { trivEnv with sparqlGetItems := fun _ _ => .error "ConnectionError" }

/-- Environment whose SELECT and ASK calls fail with a server error. -/
def errSelEnv : Env :=
  { trivEnv with
    sparqlSelectPairs := fun _ => .error "ServerError"
    sparqlAsk := fun _ => .error "ServerError" }

def emptyStore : Store := ⟨[], [], [], 0⟩

/-- A plain main-snak claim used by the concrete scenarios. -/
def mkClaim (snak prop : String) (t : Option Value) : Claim :=
  .mk snak prop .value t .normal false false [] [] none

/-! Concrete scenario data.  Store states are of the shape `load_constraints`
produces: every cached property carries its synthesized HasValidReference
entry next to the parsed constraints. -/

def cHVR7 : Constraint := ⟨"P7", none, .hasValidReference, .REGULAR, {Scope.MAIN}⟩

def cIR7 : Constraint := ⟨"P7", some "st7", .itemRequires "P8" none, .REGULAR, allScopes⟩

def rev7 : Entity := .mk "Q100" [("P7", [mkClaim "s1" "P7" (some (.item "Q1"))])] [] []

def store7 : Store := ⟨[("P7", [cIR7, cHVR7])], [], [], 0⟩

def cIR5 : Constraint :=
  ⟨"P5", some "st5", .itemRequires "P6" none, .REGULAR, {Scope.QUALIFIER}⟩

def cHVR5 : Constraint := ⟨"P5", none, .hasValidReference, .REGULAR, {Scope.MAIN}⟩

def old5 : Entity := .mk "Q100" [] [] []

def new5 : Entity := .mk "Q100" [("P5", [mkClaim "s5" "P5" (some (.item "Q2"))])] [] []

def store5 : Store := ⟨[("P5", [cIR5, cHVR5])], [], [], 0⟩

/-- Five-property revision whose entity-level constraints are all uncached,
forcing the bulk-discovery query path of `get_item_constraints`. -/
def rev5p : Entity := .mk "Q100"
  [("P11", [mkClaim "a1" "P11" (some (.item "Q1"))]),
   ("P12", [mkClaim "a2" "P12" (some (.item "Q1"))]),
   ("P13", [mkClaim "a3" "P13" (some (.item "Q1"))]),
   ("P14", [mkClaim "a4" "P14" (some (.item "Q1"))]),
   ("P15", [mkClaim "a5" "P15" (some (.item "Q1"))])] [] []

def qE : Qual := ⟨"q1", "P2", .value, some (.item "Q5"), .normal, true, false⟩

def c1E : Claim :=
  .mk "s1" "P1" .value (some (.item "Q1")) .normal false false [("P2", [qE])] [] none

def c2E : Claim :=
  .mk "s2" "P1" .value (some (.item "Q9")) .normal false false [] [] none

def entE : Entity := .mk "Q200" [("P1", [c1E, c2E])] [] []

def cOneOfE : Constraint := ⟨"P1", some "c1", .oneOf ["Q1"], .REGULAR, allScopes⟩

def cHVRP1 : Constraint := ⟨"P1", none, .hasValidReference, .REGULAR, {Scope.MAIN}⟩

def cNoneOfE : Constraint := ⟨"P2", some "c2", .noneOf [], .REGULAR, allScopes⟩

def cHVRP2 : Constraint := ⟨"P2", none, .hasValidReference, .REGULAR, {Scope.MAIN}⟩

def storeE : Store :=
  ⟨[("P1", [cOneOfE, cHVRP1]), ("P2", [cNoneOfE, cHVRP2])], [], [], 0⟩

def ocC5 : Claim := mkClaim "u1" "P9" (some (.item "Q1"))

def ncC5 : Claim := mkClaim "u1" "P9" (some (.item "Q2"))

def curC5 : Entity := .mk "Q100" [] [] []

def qa0 : Qual := ⟨"a0", "P3", .value, some (.item "QK"), .normal, true, false⟩

def qa1 : Qual := ⟨"a1", "P3", .value, some (.item "QK"), .normal, true, false⟩

def qb0 : Qual := ⟨"b0", "P3", .value, some (.item "QK"), .normal, true, false⟩

/-- Entity whose only P40 claim has no target: the co-claim quantifier of
`DifferenceWithinRange.violates` is then vacuous. -/
def ownerQ : Entity := .mk "Q300" [("P40", [mkClaim "w1" "P40" none])] [] []

/-- A claim with a quantity (non-time) target owned by `ownerQ`. -/
def cQ9 : Claim :=
  .mk "s9" "P41" .value (some (.quantity ⟨5, none, none, none⟩)) .normal false false
    [] [] (some ownerQ)

/-! The whole-entity check as the spec describes it, used to document the
divergence of `evaluate_entity`. -/

/-- Run one predicate over a list of claims, collecting its constraint on
violation. -/
def specViolatesFold (env : Env) (ct : CType) (c : Constraint) :
    List Claim → List Constraint → Store → Except EvalErr (List Constraint × Store)
  | [], violated, st => .ok (violated, st)
  | claim :: rest, violated, st =>
      match violatesM env ct claim st with
      | .error e => .error e
      | .ok (v, st2) =>
          specViolatesFold env ct c rest (if v then violated ++ [c] else violated) st2

def specMainsLoop (env : Env) (claims : List Claim) :
    List Constraint → List Constraint → Store → Except EvalErr (List Constraint × Store)
  | [], violated, st => .ok (violated, st)
  | c :: rest, violated, st =>
      match specViolatesFold env c.ctype c claims violated st with
      | .error e => .error e
      | .ok (violated2, st2) => specMainsLoop env claims rest violated2 st2

def specQcsLoop (env : Env) (values : List Qual) :
    List Constraint → List Constraint → Store → Except EvalErr (List Constraint × Store)
  | [], violated, st => .ok (violated, st)
  | qc :: rest, violated, st =>
      match specViolatesFold env qc.ctype qc (values.map Qual.toClaim) violated st with
      | .error e => .error e
      | .ok (violated2, st2) => specQcsLoop env values rest violated2 st2

def specQualsLoop (env : Env) :
    List (String × List Qual) → List Constraint → Store →
    Except EvalErr (List Constraint × Store)
  | [], violated, st => .ok (violated, st)
  | (qprop, values) :: rest, violated, st =>
      match getConstraints env (some .claimLevel) (some .QUALIFIER) qprop st with
      | .error e => .error e
      | .ok (qcs, st2) =>
          match specQcsLoop env values qcs violated st2 with
          | .error e => .error e
          | .ok (violated2, st3) => specQualsLoop env rest violated2 st3

def specClaimsQualLoop (env : Env) :
    List Claim → List Constraint → Store → Except EvalErr (List Constraint × Store)
  | [], violated, st => .ok (violated, st)
  | claim :: rest, violated, st =>
      match specQualsLoop env claim.qualifiers violated st with
      | .error e => .error e
      | .ok (violated2, st2) => specClaimsQualLoop env rest violated2 st2

def specPropLoop (env : Env) (entity : Entity) :
    List String → List Constraint → Store → Except EvalErr (List Constraint × Store)
  | [], violated, st => .ok (violated, st)
  | prop :: rest, violated, st =>
      match getConstraints env (some .claimLevel) (some .MAIN) prop st with
      | .error e => .error e
      | .ok (mains, st2) =>
          match specMainsLoop env (entity.getClaims prop) mains violated st2 with
          | .error e => .error e
          | .ok (violated2, st3) =>
              match specClaimsQualLoop env (entity.getClaims prop) violated2 st3 with
              | .error e => .error e
              | .ok (violated3, st4) => specPropLoop env entity rest violated3 st4

/-- Modelled from the spec: `evaluate_entity(entity)` as section 4.4 words it
(run every claim-level constraint of each property against each of that
property's claims, every qualifier-property claim-level constraint against
each qualifier, collect every unsatisfied entity-level constraint) — i.e. the
source's loop with its variable shadowing removed. -/
def specEvaluateEntity (env : Env) (entity : Entity) (st : Store) :
    Except EvalErr (List Constraint × Store) :=
  match specPropLoop env entity (alistKeys entity.claims) [] st with
  | .error e => .error e
  | .ok (violated, st2) =>
      match getItemConstraints env (alistKeys entity.claims) (alistKeys entity.claims) st2 with
      | .error e => .error e
      | .ok (ics, st3) => eeItemLoop env entity ics violated st3

/-! Claim-side comparison definitions. -/

def claimedGo : List Qual → List (Nat × Qual) → List Qual × List (Nat × Qual)
  | [], avail => ([], avail)
  | q :: rest, avail =>
      match avail.find? (fun jo => decide (cmpKeyQ q = cmpKeyQ jo.2)) with
      | some jo => claimedGo rest (avail.filter (fun x => !(x.1 == jo.1)))
      | none =>
          let r := claimedGo rest avail
          (q :: r.1, r.2)

/-- Modelled from the claim (C6): pairing by `cmp_key` equality,
first-match-wins in encounter order with each new qualifier consumed by at
most one old qualifier; returns `(added, removed)` as the unconsumed new and
unmatched old qualifiers. -/
def claimedQualDiff (olds news : List Qual) : List Qual × List Qual :=
  let r := claimedGo olds news.enum
  (r.2.map Prod.snd, r.1)

/-- The first-occurrence characterization of the added qualifiers: walking
`news` with its index, an entry is consumed exactly when some old qualifier
shares its `cmp_key` and it is the first `news` entry with that key. -/
def addedSpecGo (olds news : List Qual) : List Qual → Nat → List Qual
  | [], _ => []
  | q :: rest, j =>
      if olds.any (fun o => decide (cmpKeyQ o = cmpKeyQ q))
          && (news.findIdx? (fun o => decide (cmpKeyQ o = cmpKeyQ q)) == some j)
      then addedSpecGo olds news rest (j + 1)
      else q :: addedSpecGo olds news rest (j + 1)

/-- The index set the nested matching loops record for the old side, written
as a structural recursion: index `k + m` is present exactly when the `m`-th
remaining old qualifier has some `cmp_key`-equal entry in `news`. -/
def matchedIdxs (news : List Qual) : List Qual → Nat → List Nat
  | [], _ => []
  | q :: rest, k =>
      (if (news.findIdx? (fun o => decide (cmpKeyQ q = cmpKeyQ o))).isSome
       then [k] else []) ++ matchedIdxs news rest (k + 1)

/-- Python lexicographic `(month, day) < (month, day)`. -/
def mdLt (tn un : WbTime) : Prop :=
  tn.month < un.month ∨ (tn.month = un.month ∧ tn.day < un.day)

instance (tn un : WbTime) : Decidable (mdLt tn un) := by
  unfold mdLt
  infer_instance

/-- One bound of the delta check of C9, in the claim's words: the delta
between the two normalized times measured in the unit item of the bound
(Q577 calendar-aware years, Q573 days of the timestamp difference, Q11574
seconds) compared by `cmp`. -/
def specBoundOutside (b : Option WbQuantity) (tn un : WbTime)
    (cmp : ℚ → ℚ → Prop) : Prop :=
  ∃ bq, b = some bq ∧
    ((bq.unit = some "Q577" ∧
        cmp (((tn.year - un.year - (if mdLt tn un then 1 else 0) : Int) : ℚ)) bq.amount)
     ∨ (bq.unit = some "Q573" ∧
        cmp (((Int.fdiv (tn.totalSeconds - un.totalSeconds) 86400 : Int) : ℚ)) bq.amount)
     ∨ (bq.unit = some "Q11574" ∧
        cmp (((tn.totalSeconds - un.totalSeconds : Int) : ℚ)) bq.amount))

/-- The delta of two times lies outside `[lower, upper]` in the claim's
words; both normalized times must be timestamp-representable (years 1..9999,
the source's caught ValueError) for any bound to fire. -/
def specOutside (lo hi : Option WbQuantity) (t u : WbTime) : Prop :=
  let tn := t.normalize
  let un := u.normalize
  (1 ≤ tn.year ∧ tn.year ≤ 9999) ∧ (1 ≤ un.year ∧ un.year ≤ 9999) ∧
  (specBoundOutside lo tn un (fun x y => x < y)
   ∨ specBoundOutside hi tn un (fun x y => y < x))

/-- A pair of claim values is an out-of-range pair exactly when both are
times with the delta outside the range. -/
def valueOutsideSpec (lo hi : Option WbQuantity) (v w : Value) : Prop :=
  ∃ t u, v = .time t ∧ w = .time u ∧ specOutside lo hi t u

def clW : Claim := mkClaim "w1" "P1" (some (.item "Q1"))

def entW : Entity := .mk "Q100" [("P1", [clW])] [] []

def ctxW : Context := ⟨entW, entW, some clW, some clW⟩

def cSandboxW : Constraint := ⟨"P1", none, .sandboxProperty, .SUGGESTION, allScopes⟩

/-- A P2302 declaration selecting the no-bounds constraint (Q51723761) with
no qualifiers at all. -/
def declC10 : Claim :=
  .mk "d1" "P2302" .value (some (.item "Q51723761")) .normal false false [] [] none

def revP31 : Entity := .mk "Q301" [("P31", [mkClaim "t1" "P31" (some (.item "Q1"))])] [] []

def clVT : Claim := mkClaim "v1" "P20" (some (.item "Q7"))

/-! Theorems.  Helper lemmas first, then one theorem per claim with its
witness or counterexample. -/

@[simp] theorem ebind_error {α β : Type} (e : EvalErr)
    (f : α → Store → Except EvalErr (β × Store)) :
    ebind (.error e) f = .error e := rfl

@[simp] theorem ebind_ok {α β : Type} (a : α) (st : Store)
    (f : α → Store → Except EvalErr (β × Store)) :
    ebind (.ok (a, st)) f = f a st := rfl

theorem ebind_ok_inv {α β : Type} {m : Except EvalErr (α × Store)}
    {f : α → Store → Except EvalErr (β × Store)} {b : β} {st2 : Store}
    (h : ebind m f = .ok (b, st2)) :
    ∃ a st1, m = .ok (a, st1) ∧ f a st1 = .ok (b, st2) := by
  cases m with
  | error e => simp [ebind] at h
  | ok p => exact ⟨p.1, p.2, rfl, h⟩

/-- C5, counterexample: an update atom (both claims present, same snak id)
whose old claim is not in `current` and whose property is absent from
`current` is nevertheless not skipped — the second skip condition of
`evaluate_change` requires the old claim to be absent. -/
theorem c5_counterexample :
    skipAtom curC5 (some ocC5) (some ncC5) = false
    ∧ itemHasClaim curC5 ocC5 = false
    ∧ curC5.hasProp ncC5.prop = false :=
  ⟨rfl, rfl, rfl⟩

/-- C5 (amended): when `evaluate_change` is given a `current` revision, a
diff atom is skipped iff its old claim is still present in `current`, or it
is a pure addition (new claim present, old absent) whose property is absent
from `current`; an update atom with both claims present is only skipped via
the first condition. -/
theorem c5_skip_iff (cur : Entity) (oc nc : Option Claim) :
    skipAtom cur oc nc = true ↔
      (∃ c, oc = some c ∧ itemHasClaim cur c = true) ∨
      (∃ c, nc = some c ∧ oc = none ∧ cur.hasProp c.prop = false) := by
  cases oc <;> cases nc <;> simp [skipAtom]

/-- C7: for every constraint and context, `handle_update` contributes the
update score multiplied by the status weight, `handle_addition` contributes
`min(0, score)` under SUGGESTION status and the raw score otherwise, and
`handle_removal` always contributes the raw removal score with no status
weighting (a SUGGESTION constraint's removal keeps its negative credit). -/
theorem c7_handler_scores (env : Env) (c : Constraint) (ctx : Context)
    (r : Result) (st sta str2 stu : Store) (sa sr su : Int)
    (ha : scoreForAdditionM env c.ctype ctx st = .ok (sa, sta))
    (hr : scoreForRemovalM env c.ctype ctx st = .ok (sr, str2))
    (hu : scoreForUpdateM env c.ctype ctx st = .ok (su, stu)) :
    handleAdditionM env c ctx r st
      = .ok (r.add c (if c.status = .SUGGESTION then min 0 sa else sa), sta)
    ∧ handleRemovalM env c ctx r st = .ok (r.add c sr, str2)
    ∧ handleUpdateM env c ctx r st = .ok (r.add c (su * c.status.toInt), stu) := by
  refine ⟨?_, ?_, ?_⟩
  · unfold handleAdditionM
    rw [ha, ebind_ok]
  · unfold handleRemovalM
    rw [hr, ebind_ok]
  · unfold handleUpdateM
    rw [hu, ebind_ok]

/-- Witness for C7 at a SUGGESTION SandboxProperty constraint: the addition
score 1 is clamped to 0, the removal score -1 is kept, the update score 0 is
weighted by the status. -/
theorem c7_handler_scores_witness :
    handleAdditionM trivEnv cSandboxW ctxW Result.empty emptyStore
      = .ok (Result.empty.add cSandboxW
          (if cSandboxW.status = .SUGGESTION then min 0 1 else 1), emptyStore)
    ∧ handleRemovalM trivEnv cSandboxW ctxW Result.empty emptyStore
      = .ok (Result.empty.add cSandboxW (-1), emptyStore)
    ∧ handleUpdateM trivEnv cSandboxW ctxW Result.empty emptyStore
      = .ok (Result.empty.add cSandboxW (0 * cSandboxW.status.toInt), emptyStore) :=
  c7_handler_scores trivEnv cSandboxW ctxW Result.empty emptyStore emptyStore
    emptyStore emptyStore 1 (-1) 0 rfl rfl rfl

/-- C10: a P2302 declaration that `load_constraints` parses into a
Constraint (via `parseDeclaration`) never gets an empty scopes set, and when
its P4680 qualifiers yield no recognized constraint-scope item the scopes
field is the full set MAIN/QUALIFIER/REFERENCE. -/
theorem c10_default_scopes (env : Env) (pageId : String) (decl : Claim)
    (st st2 : Store) (c : Constraint)
    (h : parseDeclaration env pageId decl st = .ok (some c, st2)) :
    c.scopes.Nonempty ∧
    (parseScopes (alistGet decl.qualifiers "P4680") = .ok ∅ → c.scopes = allScopes) := by
  unfold parseDeclaration at h
  split at h
  · simp at h
  · split at h
    · simp at h
    · split at h
      · simp at h
      · split at h
        · split at h
          · simp at h
          · simp at h
          · split at h
            · simp at h
            · split at h
              · simp at h
              · rename_i scopes0 hscopes
                rw [Except.ok.injEq, Prod.mk.injEq, Option.some.injEq] at h
                obtain ⟨hc, hst⟩ := h
                subst hc
                constructor
                · by_cases h0 : scopes0 = ∅
                  · simp only [h0, if_pos rfl]
                    exact ⟨Scope.MAIN, by decide⟩
                  · simp only [if_neg h0]
                    exact Finset.nonempty_iff_ne_empty.mpr h0
                · intro hps
                  rw [hscopes, Except.ok.injEq] at hps
                  simp [hps]
        · simp at h

/-- Witness for C10 at a bare no-bounds declaration: no P4680 qualifier,
scopes default to the full set. -/
theorem c10_default_scopes_witness :
    (⟨"P1", some "d1", .noBounds, .REGULAR, allScopes⟩ : Constraint).scopes.Nonempty
    ∧ (parseScopes (alistGet declC10.qualifiers "P4680") = .ok ∅ →
        (⟨"P1", some "d1", .noBounds, .REGULAR, allScopes⟩ : Constraint).scopes
          = allScopes) :=
  c10_default_scopes trivEnv "P1" declC10 emptyStore emptyStore
    ⟨"P1", some "d1", .noBounds, .REGULAR, allScopes⟩ rfl

/-- C1, counterexample: a revision carrying a cached ItemRequires constraint
makes `evaluate_change(rev, rev)` dispatch that constraint as a zero-score
update through `get_item_constraints`, so `evaluated` is not the empty list
(the score is still 0). -/
theorem c1_counterexample :
    evaluateChange trivEnv rev7 rev7 none store7
      = .ok ({ score := 0, evaluated := [(cIR7, 0)] }, store7)
    ∧ [(cIR7, 0)] ≠ ([] : List (Constraint × Int)) :=
  ⟨rfl, by simp⟩

/-- C2, counterexample: an ItemRequires constraint declared with scopes
{QUALIFIER} is dispatched by the entity-level loop of `evaluate_change`
(which filters by type only, not by scope), although the checked position
MAIN is in neither its scopes nor in the intersection with its predicate's
intrinsic scopes, and its scopes are not a subset of the intrinsic scopes. -/
theorem c2_counterexample :
    evaluateChange trivEnv old5 new5 none store5
      = .ok ({ score := 1, evaluated := [(cHVR5, 0), (cIR5, 1)] }, store5)
    ∧ cIR5.mayCheck Scope.MAIN = false
    ∧ cIR5.scopes ∩ cIR5.ctype.intrinsicScopes = ∅
    ∧ ¬ cIR5.scopes ⊆ cIR5.ctype.intrinsicScopes :=
  ⟨rfl, rfl, by decide, by decide⟩

/-- C3, counterexample: with every bulk-discovery SPARQL call failing with a
network error, `evaluate_change` over a five-property revision (all
uncached, so the discovery path is taken for each entity-level constraint
kind) still returns a Result — the failure is caught inside
`get_item_constraints`, not propagated. -/
theorem c3_counterexample :
    evaluateChange errItemsEnv rev5p rev5p none emptyStore
      = .ok ({ score := 0, evaluated := [] }, emptyStore)
    ∧ ∀ q v, errItemsEnv.sparqlGetItems q v = .error "ConnectionError" :=
  ⟨rfl, fun _ _ => rfl⟩

/-- C4: `evaluate_entity` reuses the loop variable `constr` for the nested
qualifier-constraint loop, so after the first claim's qualifiers are
checked, subsequent claims of the same property are tested against the last
qualifier constraint instead of the main-scope constraint (and qualifiers
are re-checked once per main constraint).  On `entE` the second P1 claim
(value Q9) violates the OneOf{Q1} constraint, but the code checks it against
P2's NoneOf constraint and reports nothing, while the whole-entity check the
spec describes reports the OneOf violation. -/
theorem c4_shadowing_bug :
    evaluateEntity trivEnv entE storeE = .ok ([], storeE)
    ∧ specEvaluateEntity trivEnv entE storeE = .ok ([cOneOfE], storeE) :=
  ⟨rfl, rfl⟩

/-- C6, counterexample: two old qualifiers sharing one `cmp_key` against a
single new qualifier with that key.  The code marks both old entries matched
(the inner loop does not exclude already-consumed new indices), so nothing
is dispatched; under the claim's consume-at-most-once pairing the second old
qualifier is unmatched and must be dispatched as a removal. -/
theorem c6_counterexample :
    qualDiff [qa0, qa1] [qb0] = ([], [])
    ∧ claimedQualDiff [qa0, qa1] [qb0] = ([], [qa1]) :=
  ⟨rfl, rfl⟩

/-- C9, counterexample: a claim whose target is a quantity (not a time)
violates `DifferenceWithinRange` when the co-property claims all lack
targets (the universally quantified check is vacuous), contradicting the
claim that a time target is required. -/
theorem c9_counterexample :
    dwrViolates "P40" none none cQ9 ownerQ = true
    ∧ cQ9.target = some (.quantity ⟨5, none, none, none⟩) :=
  ⟨rfl, rfl⟩


theorem claimAdd_range {env : Env} {ct : CType} {ctx : Context} {st : Store}
    {s : Int} {st2 : Store} (h : claimAddDefault env ct ctx st = .ok (s, st2)) :
    s = 0 ∨ s = 1 := by
  unfold claimAddDefault at h
  split at h
  · simp at h
  · obtain ⟨v, st1, _, hf⟩ := ebind_ok_inv h
    rw [Except.ok.injEq, Prod.mk.injEq] at hf
    cases v <;> simp at hf <;> omega

theorem claimRem_range {env : Env} {ct : CType} {ctx : Context} {st : Store}
    {s : Int} {st2 : Store} (h : claimRemDefault env ct ctx st = .ok (s, st2)) :
    s = -1 ∨ s = 0 := by
  unfold claimRemDefault at h
  split at h
  · simp at h
  · obtain ⟨v, st1, _, hf⟩ := ebind_ok_inv h
    rw [Except.ok.injEq, Prod.mk.injEq] at hf
    cases v <;> simp at hf <;> omega

theorem claimUpd_range {env : Env} {ct : CType} {ctx : Context} {st : Store}
    {s : Int} {st2 : Store} (h : claimUpdDefault env ct ctx st = .ok (s, st2)) :
    s = -1 ∨ s = 0 ∨ s = 1 := by
  unfold claimUpdDefault at h
  split at h
  · obtain ⟨vn, st1, _, hf⟩ := ebind_ok_inv h
    obtain ⟨vo, st3, _, hg⟩ := ebind_ok_inv hf
    rw [Except.ok.injEq, Prod.mk.injEq] at hg
    cases vn <;> cases vo <;> simp at hg <;> omega
  · simp at h

theorem largeChangeUpdate_nonneg (env : Env) (oc nc : Claim) :
    0 ≤ largeChangeUpdate env oc nc := by
  unfold largeChangeUpdate
  split
  · split
    · rw [round_eq]
      refine Int.floor_nonneg.2 ?_
      positivity
    · exact le_refl 0
  · exact le_refl 0

/-- C8: for every claim-level predicate other than HasValidReference and
LargeChange, whenever the score functions return (which requires the
relevant side's claim to be present — an absent claim is a dispatch error),
the addition score is in {0, 1}, the removal score in {-1, 0} and the update
score in {-1, 0, 1}, all before status weighting and suggestion clamping;
and LargeChange's scores are always non-negative integers. -/
theorem c8_score_ranges (env : Env) (ctx : Context) (st : Store) :
    (∀ ct : CType, ct.isClaimLevel = true → ct ≠ .hasValidReference →
      ct ≠ .largeChange →
      (∀ s st2, scoreForAdditionM env ct ctx st = .ok (s, st2) → s = 0 ∨ s = 1)
      ∧ (∀ s st2, scoreForRemovalM env ct ctx st = .ok (s, st2) → s = -1 ∨ s = 0)
      ∧ (∀ s st2, scoreForUpdateM env ct ctx st = .ok (s, st2) →
          s = -1 ∨ s = 0 ∨ s = 1))
    ∧ (∀ s st2, scoreForAdditionM env .largeChange ctx st = .ok (s, st2) → 0 ≤ s)
    ∧ (∀ s st2, scoreForRemovalM env .largeChange ctx st = .ok (s, st2) → 0 ≤ s)
    ∧ (∀ s st2, scoreForUpdateM env .largeChange ctx st = .ok (s, st2) → 0 ≤ s) := by
  refine ⟨?_, ?_, ?_, ?_⟩
  · intro ct hcl hh hl
    cases ct <;>
      first
        | exact absurd rfl hh
        | exact absurd rfl hl
        | exact ⟨fun s st2 h => claimAdd_range h, fun s st2 h => claimRem_range h,
            fun s st2 h => claimUpd_range h⟩
        | exact ⟨fun s st2 h => claimAdd_range h, fun s st2 h => claimRem_range h,
            fun s st2 h => by
              simp only [scoreForUpdateM, Except.ok.injEq, Prod.mk.injEq] at h
              omega⟩
        | simp [CType.isClaimLevel] at hcl
  · intro s st2 h
    simp only [scoreForAdditionM, Except.ok.injEq, Prod.mk.injEq] at h
    omega
  · intro s st2 h
    simp only [scoreForRemovalM, Except.ok.injEq, Prod.mk.injEq] at h
    omega
  · intro s st2 h
    simp only [scoreForUpdateM] at h
    split at h
    · rw [Except.ok.injEq, Prod.mk.injEq] at h
      obtain ⟨hs, _⟩ := h
      subst hs
      exact largeChangeUpdate_nonneg env _ _
    · simp at h

/-- Witness for C8: on the concrete context `ctxW`, OneOf with an empty
value set scores the addition with 1, which lies in {0, 1}. -/
theorem c8_score_ranges_witness :
    CType.isClaimLevel (.oneOf []) = true
    ∧ scoreForAdditionM trivEnv (.oneOf []) ctxW emptyStore = .ok (1, emptyStore)
    ∧ ((1 : Int) = 0 ∨ (1 : Int) = 1) :=
  ⟨rfl, rfl,
    ((c8_score_ranges trivEnv ctxW emptyStore).1 (.oneOf []) rfl
      (by simp) (by simp)).1 1 emptyStore rfl⟩

theorem filterConstraints_scope_mem {tf : Option TypeFilter} {sc : Scope}
    {out : List Constraint} {c : Constraint}
    (h : c ∈ filterConstraints tf (some sc) out) : c.mayCheck sc = true := by
  unfold filterConstraints at h
  cases tf with
  | none => exact (List.mem_filter.mp h).2
  | some f => exact (List.mem_filter.mp (List.mem_filter.mp h).1).2

theorem filterConstraints_type_mem {tf : TypeFilter} {sc : Option Scope}
    {out : List Constraint} {c : Constraint}
    (h : c ∈ filterConstraints (some tf) sc out) : tf.matches c.ctype = true := by
  unfold filterConstraints at h
  exact (List.mem_filter.mp h).2

theorem getConstraints_ok_inv {env : Env} {tf : Option TypeFilter}
    {sc : Option Scope} {prop : String} {st : Store} {l : List Constraint}
    {st2 : Store} (h : getConstraints env tf sc prop st = .ok (l, st2)) :
    ∃ out, l = filterConstraints tf sc out := by
  unfold getConstraints at h
  split at h
  · rw [Except.ok.injEq, Prod.mk.injEq] at h
    exact ⟨_, h.1.symm⟩
  · split at h
    · simp at h
    · rw [Except.ok.injEq, Prod.mk.injEq] at h
      exact ⟨_, h.1.symm⟩

/-- C2 (amended): every claim-level dispatch goes through `get_constraints`
with a scope argument, and each constraint it returns passes `may_check`: the
checked scope lies in both the constraint's scopes and the predicate's
intrinsic scopes.  (The entity-level dispatches of `evaluate_change` and
`get_item_constraints` filter by type only — `c2_counterexample` shows a
dispatched entity-level constraint whose scopes exclude MAIN — and
`scopes ⊆ intrinsic_scopes` is not enforced anywhere.) -/
theorem c2_scope_filter (env : Env) (tf : Option TypeFilter) (sc : Scope)
    (prop : String) (st : Store) (l : List Constraint) (st2 : Store)
    (h : getConstraints env tf (some sc) prop st = .ok (l, st2)) :
    ∀ c ∈ l, c.mayCheck sc = true
      ∧ sc ∈ c.scopes ∧ sc ∈ c.ctype.intrinsicScopes := by
  intro c hc
  obtain ⟨out, hl⟩ := getConstraints_ok_inv h
  subst hl
  have hmc := filterConstraints_scope_mem hc
  refine ⟨hmc, ?_, ?_⟩
  · unfold Constraint.mayCheck at hmc
    simp only [Bool.and_eq_true, decide_eq_true_eq] at hmc
    exact hmc.1
  · unfold Constraint.mayCheck at hmc
    simp only [Bool.and_eq_true, decide_eq_true_eq] at hmc
    exact hmc.2

/-- Witness for C2's amended theorem: the MAIN-scope claim-level constraints
of P5 in `store5` are just the HasValidReference entry, which may check
MAIN. -/
theorem c2_scope_filter_witness :
    cHVR5 ∈ [cHVR5]
    ∧ (cHVR5.mayCheck Scope.MAIN = true
        ∧ Scope.MAIN ∈ cHVR5.scopes ∧ Scope.MAIN ∈ cHVR5.ctype.intrinsicScopes) :=
  ⟨List.mem_singleton.mpr rfl,
    c2_scope_filter trivEnv (some .claimLevel) Scope.MAIN "P5" store5 [cHVR5]
      store5 rfl cHVR5 (List.mem_singleton.mpr rfl)⟩

theorem lru_empty_has {κ α : Type} [DecidableEq κ] (limit : Nat) (key : κ) :
    (LRUCache.empty κ α limit).has key = false := rfl

theorem subjectType_error_propagates (env : Env) (rel classes : List String)
    (cid : Nat) (rev : Entity) (st : Store) (check : List String) (e : String)
    (hcheck : subjectTypeCheck rel rev = .ok check)
    (hne : check ≠ [])
    (hcls : classes ≠ [])
    (hany : check.any (fun b => classes.contains b) = false)
    (hcache : st.stCaches = [])
    (hsel : env.sparqlSelectPairs (subjectTypeQuery check) = .error e) :
    subjectTypeSatisfied env rel classes cid rev st
      = .error (.sparqlFail (subjectTypeQuery check)) := by
  unfold subjectTypeSatisfied
  rw [hcheck]
  dsimp only
  have hemp : check.isEmpty = false := by
    cases check with
    | nil => exact absurd rfl hne
    | cons a l => rfl
  rw [hemp, hany]
  simp only [Bool.false_eq_true, if_false]
  have hcof : st.stCacheOf cid = LRUCache.empty (String × String) Bool 100 := by
    unfold Store.stCacheOf
    rw [hcache]
    rfl
  rw [hcof]
  have hfold : ∀ (cross : List (String × String)),
      cross.foldl (fun acc key =>
        if acc.1 then acc
        else if acc.2.has key then
          match acc.2.getMove key with
          | some (b, c2) => (b, c2)
          | none => acc
        else acc) (false, LRUCache.empty (String × String) Bool 100)
      = (false, LRUCache.empty (String × String) Bool 100) := by
    intro cross
    exact List.foldl_fixed' (fun key => rfl) cross
  rw [hfold]
  dsimp only
  obtain ⟨c, cr, rfl⟩ : ∃ c cr, check = c :: cr := by
    cases check with
    | nil => exact absurd rfl hne
    | cons a l => exact ⟨a, l, rfl⟩
  obtain ⟨k, kr, rfl⟩ : ∃ k kr, classes = k :: kr := by
    cases classes with
    | nil => exact absurd rfl hcls
    | cons a l => exact ⟨a, l, rfl⟩
  simp only [List.flatMap_cons, List.map_cons, List.cons_append, List.all_cons,
    lru_empty_has, Bool.false_and, Bool.false_eq_true, if_false]
  rw [hsel]

theorem valueType_error_propagates (env : Env) (rel classes : List String)
    (cid : Nat) (tid : String) (c : Claim) (st : Store) (e : String)
    (htgt : c.target = some (.item tid))
    (hcache : st.vtCaches = [])
    (hask : env.sparqlAsk (valueTypeQuery rel classes tid) = .error e) :
    violatesM env (.valueType rel classes cid) c st
      = .error (.sparqlFail (valueTypeQuery rel classes tid)) := by
  unfold violatesM
  rw [htgt]
  have hcof : st.vtCacheOf cid = LRUCache.empty String Bool 100 := by
    unfold Store.vtCacheOf
    rw [hcache]
    rfl
  dsimp only
  rw [hcof]
  rw [lru_empty_has]
  simp only [Bool.false_eq_true, if_false]
  rw [hask]

theorem discovery_error_swallowed (env : Env) (props changed : List String)
    (tf : TypeFilter) (itemId : String) (require : Option (List String))
    (st st2 : Store) (acc : List Constraint) (msg : String)
    (hskip : (match require with
      | some r => !(changed.any (fun c => r.contains c))
      | none => false) = false)
    (hfold : constraintsFold env tf (cachedSplit st props).1 [] st = .ok (acc, st2))
    (hleft : (cachedSplit st props).2 ≠ [])
    (hq : env.sparqlGetItems
        (discoveryQuery require.isSome (cachedSplit st props).2 changed itemId)
        "prop" = .error msg) :
    itemConstraintsForTuple env props changed tf itemId require st = .ok (acc, st2) := by
  unfold itemConstraintsForTuple
  rw [hskip]
  simp only [Bool.false_eq_true, if_false]
  rw [hfold]
  have hemp : (cachedSplit st props).2.isEmpty = false := by
    cases hl : (cachedSplit st props).2 with
    | nil => exact absurd hl hleft
    | cons a l => rfl
  rw [hemp]
  simp only [Bool.false_eq_true, if_false]
  rw [hq]

/-- C3 (amended): a network or server failure of the cache-filling query in
`SubjectType.satisfied` or `ValueType.violates` is re-raised and so aborts
the evaluation that dispatched it, but a failure of the bulk-discovery query
in `get_item_constraints` is caught and logged: that query's constraints are
skipped and the evaluation continues, producing a Result
(see the matching counterexample for an end-to-end run). -/
theorem c3_error_handling :
    (∀ (env : Env) (rel classes : List String) (cid : Nat) (rev : Entity)
      (st : Store) (check : List String) (e : String),
      subjectTypeCheck rel rev = .ok check → check ≠ [] → classes ≠ [] →
      check.any (fun b => classes.contains b) = false → st.stCaches = [] →
      env.sparqlSelectPairs (subjectTypeQuery check) = .error e →
      subjectTypeSatisfied env rel classes cid rev st
        = .error (.sparqlFail (subjectTypeQuery check)))
    ∧ (∀ (env : Env) (rel classes : List String) (cid : Nat) (tid : String)
      (c : Claim) (st : Store) (e : String),
      c.target = some (.item tid) → st.vtCaches = [] →
      env.sparqlAsk (valueTypeQuery rel classes tid) = .error e →
      violatesM env (.valueType rel classes cid) c st
        = .error (.sparqlFail (valueTypeQuery rel classes tid)))
    ∧ (∀ (env : Env) (props changed : List String) (tf : TypeFilter)
      (itemId : String) (require : Option (List String)) (st st2 : Store)
      (acc : List Constraint) (msg : String),
      (match require with
        | some r => !(changed.any (fun c => r.contains c))
        | none => false) = false →
      constraintsFold env tf (cachedSplit st props).1 [] st = .ok (acc, st2) →
      (cachedSplit st props).2 ≠ [] →
      env.sparqlGetItems
        (discoveryQuery require.isSome (cachedSplit st props).2 changed itemId)
        "prop" = .error msg →
      itemConstraintsForTuple env props changed tf itemId require st
        = .ok (acc, st2)) :=
  ⟨subjectType_error_propagates, valueType_error_propagates,
    discovery_error_swallowed⟩

/-- Witness for C3's amended theorem at concrete data: SubjectType and
ValueType error out on a failing SPARQL endpoint; the discovery query of
`get_item_constraints` fails but the tuple evaluation returns normally. -/
theorem c3_error_handling_witness :
    subjectTypeSatisfied errSelEnv ["P31"] ["Q5"] 0 revP31 emptyStore
      = .error (.sparqlFail (subjectTypeQuery ["Q1"]))
    ∧ violatesM errSelEnv (.valueType ["P31"] ["Q5"] 0) clVT emptyStore
      = .error (.sparqlFail (valueTypeQuery ["P31"] ["Q5"] "Q7"))
    ∧ itemConstraintsForTuple errItemsEnv ["P11", "P12", "P13", "P14", "P15"] []
        .itemRequiresF "Q21503247" none emptyStore = .ok ([], emptyStore) :=
  ⟨c3_error_handling.1 errSelEnv ["P31"] ["Q5"] 0 revP31 emptyStore ["Q1"]
      "ServerError" rfl (by simp) (by simp) rfl rfl rfl,
    (c3_error_handling.2.1) errSelEnv ["P31"] ["Q5"] 0 "Q7" clVT emptyStore
      "ServerError" rfl rfl rfl,
    (c3_error_handling.2.2) errItemsEnv ["P11", "P12", "P13", "P14", "P15"] []
      .itemRequiresF "Q21503247" none emptyStore emptyStore [] "ConnectionError"
      rfl rfl (by decide) rfl⟩

theorem tupleLt_md (tn un : WbTime) :
    tupleLt [(tn.month : Int), (tn.day : Int)] [(un.month : Int), (un.day : Int)]
      = true ↔ mdLt tn un := by
  simp [tupleLt, mdLt, Nat.cast_lt, Nat.cast_inj]

theorem dwrBoundViol_iff (b : Option WbQuantity) (years delta : Int)
    (cmp : ℚ → ℚ → Prop) [DecidablePred fun p : ℚ × ℚ => cmp p.1 p.2]
    (cmpb : ℚ → ℚ → Bool) (hcmp : ∀ x y, cmpb x y = true ↔ cmp x y) :
    dwrBoundViol b years delta cmpb = true ↔
      ∃ bq, b = some bq ∧
        ((bq.unit = some "Q577" ∧ cmp ((years : Int) : ℚ) bq.amount)
         ∨ (bq.unit = some "Q573" ∧ cmp (((timedeltaDays delta : Int)) : ℚ) bq.amount)
         ∨ (bq.unit = some "Q11574" ∧ cmp (((delta : Int)) : ℚ) bq.amount)) := by
  cases b with
  | none => simp [dwrBoundViol]
  | some bq =>
      cases hu : bq.unit with
      | none => simp [dwrBoundViol, hu]
      | some uu =>
          simp only [dwrBoundViol, hu, Bool.or_eq_true, Bool.and_eq_true,
            beq_iff_eq, Option.some.injEq, exists_eq_left', hcmp]
          constructor
          · rintro ((h1 | h2) | h3)
            · exact Or.inl ⟨by rw [h1.1], h1.2⟩
            · exact Or.inr (Or.inl ⟨by rw [h2.1], h2.2⟩)
            · exact Or.inr (Or.inr ⟨by rw [h3.1], h3.2⟩)
          · rintro (h1 | h2 | h3)
            · exact Or.inl (Or.inl ⟨h1.1, h1.2⟩)
            · exact Or.inl (Or.inr ⟨h2.1, h2.2⟩)
            · exact Or.inr ⟨h3.1, h3.2⟩

theorem dwrOutside_iff (lo hi : Option WbQuantity) (v w : Value) :
    dwrOutsideRange lo hi v w = true ↔ valueOutsideSpec lo hi v w := by
  cases v <;> cases w <;>
    (try (simp [dwrOutsideRange, valueOutsideSpec]; done))
  rename_i t u
  have hrhs : valueOutsideSpec lo hi (.time t) (.time u) ↔ specOutside lo hi t u := by
    simp [valueOutsideSpec]
  rw [hrhs]
  unfold dwrOutsideRange specOutside WbTime.toTimestampE
  dsimp only
  by_cases h1 : 1 ≤ t.normalize.year ∧ t.normalize.year ≤ 9999
  · by_cases h2 : 1 ≤ u.normalize.year ∧ u.normalize.year ≤ 9999
    · rw [if_pos h1, if_pos h2]
      dsimp only
      have hyears :
          (if tupleLt [(t.normalize.month : Int), (t.normalize.day : Int)]
              [(u.normalize.month : Int), (u.normalize.day : Int)]
           then t.normalize.year - u.normalize.year - 1
           else t.normalize.year - u.normalize.year)
          = t.normalize.year - u.normalize.year
            - (if mdLt t.normalize u.normalize then 1 else 0) := by
        by_cases hmd : mdLt t.normalize u.normalize
        · rw [if_pos ((tupleLt_md t.normalize u.normalize).mpr hmd), if_pos hmd]
        · rw [if_neg (fun hc => hmd ((tupleLt_md t.normalize u.normalize).mp hc)),
            if_neg hmd]
          ring
      rw [hyears]
      rw [Bool.or_eq_true]
      rw [dwrBoundViol_iff lo _ _ (fun x y => x < y) (fun x y => decide (x < y))
        (fun x y => by simp)]
      rw [dwrBoundViol_iff hi _ _ (fun x y => y < x) (fun x y => decide (x > y))
        (fun x y => by simp [gt_iff_lt])]
      unfold specBoundOutside
      simp only [h1, h2, true_and]
      simp [timedeltaDays]
    · rw [if_pos h1, if_neg h2]
      dsimp only
      simp only [h2, false_and, and_false, iff_false, Bool.false_eq_true,
        not_false_eq_true]
  · rw [if_neg h1]
    dsimp only
    simp only [h1, false_and, iff_false, Bool.false_eq_true, not_false_eq_true]

/-- C9 (amended): `DifferenceWithinRange.violates(claim)` is true iff the
claim has a truthy target of any type (not necessarily a time), the owning
entity has at least one prop-claim, and every prop-claim carrying a truthy
target forms an out-of-range pair with it — a pair being out of range only
when both values are times whose normalized forms are representable as
timestamps and whose delta, measured in the unit item of a bound (Q577
calendar-aware years, Q573 days, Q11574 seconds), falls below the lower or
above the upper bound; and `violates` on a claim owned by `owner` computes
exactly this predicate. -/
theorem c9_dwr_characterization (prop : String) (lo hi : Option WbQuantity)
    (c : Claim) (owner : Entity) :
    (dwrViolates prop lo hi c owner = true ↔
      ∃ v, c.target = some v ∧ v.truthy = true ∧ owner.getClaims prop ≠ [] ∧
        ∀ co ∈ owner.getClaims prop, ∀ w, co.target = some w → w.truthy = true →
          valueOutsideSpec lo hi v w)
    ∧ ∀ (env : Env) (st : Store), c.onItem = some owner →
        violatesM env (.differenceWithinRange prop lo hi) c st
          = .ok (dwrViolates prop lo hi c owner, st) := by
  constructor
  · unfold dwrViolates
    cases htc : c.target with
    | none => simp
    | some v =>
        simp only [Option.some.injEq, exists_eq_left']
        by_cases htr : v.truthy
        · rw [htr]
          simp only [Bool.not_true, Bool.false_eq_true, if_false, htr, true_and]
          by_cases hemp : (owner.getClaims prop).isEmpty
          · simp only [hemp, if_true]
            rw [List.isEmpty_iff] at hemp
            simp [hemp]
          · simp only [hemp, Bool.false_eq_true, if_false]
            have hne : owner.getClaims prop ≠ [] := by
              intro hc
              rw [hc] at hemp
              exact hemp rfl
            simp only [hne, ne_eq, not_false_eq_true, true_and]
            rw [List.all_eq_true]
            constructor
            · intro h co hco w hw htw
              have h2 := h co hco
              rw [hw] at h2
              simp only [htw, if_true] at h2
              exact (dwrOutside_iff lo hi v w).mp h2
            · intro h co hco
              cases hw : co.target with
              | none => rfl
              | some w =>
                  by_cases htw : w.truthy
                  · simp only [htw, if_true]
                    exact (dwrOutside_iff lo hi v w).mpr (h co hco w hw htw)
                  · simp [htw]
        · simp only [Bool.not_eq_true] at htr
          rw [htr]
          simp [htr]
  · intro env st hoi
    simp only [violatesM]
    unfold dwrViolates
    cases htc : c.target with
    | none => simp
    | some v =>
        by_cases htr : v.truthy
        · simp only [htr, Bool.not_true, Bool.false_eq_true, if_false]
          rw [hoi]
        · simp only [Bool.not_eq_true] at htr
          simp [htr]

/-- Witness for C9's amended theorem: on the concrete claim `cQ9` owned by
`ownerQ`, `violates` through the evaluator equals the characterized
predicate. -/
theorem c9_dwr_characterization_witness :
    violatesM trivEnv (.differenceWithinRange "P40" none none) cQ9 emptyStore
      = .ok (dwrViolates "P40" none none cQ9 ownerQ, emptyStore) :=
  (c9_dwr_characterization "P40" none none cQ9 ownerQ).2 trivEnv emptyStore rfl

theorem qualMatchGo_fst (news : List Qual) :
    ∀ (olds : List Qual) (k : Nat) (a : List Nat × List Nat),
    (qualMatchGo news olds k a).1 = a.1 ++ matchedIdxs news olds k := by
  intro olds
  induction olds with
  | nil => intro k a; simp [qualMatchGo, matchedIdxs]
  | cons q rest ih =>
      intro k a
      unfold qualMatchGo matchedIdxs
      cases hf : news.findIdx? (fun o => decide (cmpKeyQ q = cmpKeyQ o)) with
      | some j =>
          rw [ih]
          simp
      | none =>
          rw [ih]
          simp

theorem matchedIdxs_ge (news : List Qual) :
    ∀ (olds : List Qual) (k i : Nat), i ∈ matchedIdxs news olds k → k ≤ i := by
  intro olds
  induction olds with
  | nil => intro k i h; simp [matchedIdxs] at h
  | cons q rest ih =>
      intro k i h
      unfold matchedIdxs at h
      rw [List.mem_append] at h
      rcases h with h | h
      · split at h
        · rw [List.mem_singleton] at h
          omega
        · simp at h
      · have := ih (k + 1) i h
        omega

theorem unmatched_matched (news : List Qual) :
    ∀ (olds : List Qual) (k : Nat) (pre : List Nat), (∀ i ∈ pre, i < k) →
    unmatchedGo (pre ++ matchedIdxs news olds k) olds k
      = olds.filter (fun q => !(news.any (fun o => decide (cmpKeyQ q = cmpKeyQ o)))) := by
  intro olds
  induction olds with
  | nil => intro k pre hpre; rfl
  | cons q rest ih =>
      intro k pre hpre
      have hany : news.any (fun o => decide (cmpKeyQ q = cmpKeyQ o))
          = (news.findIdx? (fun o => decide (cmpKeyQ q = cmpKeyQ o))).isSome :=
        (List.findIdx?_isSome).symm
      unfold matchedIdxs unmatchedGo
      by_cases hf : (news.findIdx? (fun o => decide (cmpKeyQ q = cmpKeyQ o))).isSome
      · rw [if_pos hf]
        have hcont : (pre ++ ([k] ++ matchedIdxs news rest (k + 1))).contains k = true := by
          rw [List.elem_iff]
          simp
        rw [hcont]
        simp only [if_true]
        rw [List.filter_cons]
        have : (!(news.any (fun o => decide (cmpKeyQ q = cmpKeyQ o)))) = false := by
          rw [hany, hf]
          rfl
        rw [this]
        simp only [Bool.false_eq_true, if_false]
        rw [← List.append_assoc]
        exact ih (k + 1) (pre ++ [k]) (by
          intro i hi
          rw [List.mem_append, List.mem_singleton] at hi
          rcases hi with hi | hi
          · exact Nat.lt_succ_of_lt (hpre i hi)
          · omega)
      · rw [if_neg hf]
        have hcont : (pre ++ ([] ++ matchedIdxs news rest (k + 1))).contains k = false := by
          rw [Bool.eq_false_iff]
          intro hc
          rw [List.elem_iff] at hc
          rw [List.nil_append, List.mem_append] at hc
          rcases hc with hc | hc
          · exact absurd (hpre k hc) (lt_irrefl k)
          · have := matchedIdxs_ge news rest (k + 1) k hc
            omega
        rw [hcont]
        simp only [Bool.false_eq_true, if_false]
        rw [List.filter_cons]
        have : (!(news.any (fun o => decide (cmpKeyQ q = cmpKeyQ o)))) = true := by
          rw [hany, Bool.eq_false_iff.mpr hf]
          rfl
        rw [this]
        simp only [if_true]
        rw [List.nil_append]
        rw [ih (k + 1) pre (fun i hi => Nat.lt_succ_of_lt (hpre i hi))]

theorem findIdx?_ext {α : Type} (p q : α → Bool) (h : ∀ x, p x = q x) :
    ∀ l : List α, l.findIdx? p = l.findIdx? q := by
  intro l
  induction l with
  | nil => rfl
  | cons a rest ih => simp [List.findIdx?_cons, h a, ih]

theorem qualMatchGo_snd_mem (news : List Qual) :
    ∀ (olds : List Qual) (k : Nat) (a : List Nat × List Nat) (j : Nat),
    j ∈ (qualMatchGo news olds k a).2 ↔
      j ∈ a.2 ∨ ∃ q ∈ olds,
        news.findIdx? (fun o => decide (cmpKeyQ q = cmpKeyQ o)) = some j := by
  intro olds
  induction olds with
  | nil => intro k a j; simp [qualMatchGo]
  | cons q rest ih =>
      intro k a j
      unfold qualMatchGo
      cases hf : news.findIdx? (fun o => decide (cmpKeyQ q = cmpKeyQ o)) with
      | some j0 =>
          rw [ih]
          rw [List.exists_mem_cons_iff]
          rw [hf]
          simp only [Option.some.injEq]
          by_cases hc : a.2.contains j0
          · rw [if_pos hc]
            have hj0 : j0 ∈ a.2 := List.elem_iff.mp hc
            constructor
            · rintro (h | h)
              · exact Or.inl h
              · exact Or.inr (Or.inr h)
            · rintro (h | h | h)
              · exact Or.inl h
              · rw [← h]
                exact Or.inl hj0
              · exact Or.inr h
          · rw [if_neg hc]
            simp only [List.mem_append, List.mem_singleton]
            constructor
            · rintro ((h | h) | h)
              · exact Or.inl h
              · exact Or.inr (Or.inl h.symm)
              · exact Or.inr (Or.inr h)
            · rintro (h | h | h)
              · exact Or.inl (Or.inl h)
              · exact Or.inl (Or.inr h.symm)
              · exact Or.inr h
      | none =>
          rw [ih]
          rw [List.exists_mem_cons_iff]
          rw [hf]
          simp

theorem added_walk (olds news : List Qual) (M : List Nat)
    (hM : ∀ i, i ∈ M ↔ ∃ q ∈ olds,
      news.findIdx? (fun o => decide (cmpKeyQ q = cmpKeyQ o)) = some i) :
    ∀ (suf : List Qual) (j : Nat), news.drop j = suf →
    unmatchedGo M suf j = addedSpecGo olds news suf j := by
  intro suf
  induction suf with
  | nil => intro j h; rfl
  | cons q rest ih =>
      intro j hdrop
      have hq : news[j]? = some q := by
        rw [← List.head?_drop, hdrop]
        rfl
      have hjlen : j < news.length := by
        by_contra hcon
        rw [List.getElem?_eq_none (Nat.le_of_not_lt hcon)] at hq
        exact Option.noConfusion hq
      have hqget : news[j] = q := by
        have := List.getElem?_eq_getElem hjlen
        rw [hq] at this
        exact (Option.some.inj this).symm
      have hiff : M.contains j =
          (olds.any (fun o => decide (cmpKeyQ o = cmpKeyQ q))
            && (news.findIdx? (fun o => decide (cmpKeyQ o = cmpKeyQ q)) == some j)) := by
        rcases hb : (olds.any (fun o => decide (cmpKeyQ o = cmpKeyQ q))
            && (news.findIdx? (fun o => decide (cmpKeyQ o = cmpKeyQ q)) == some j)) with _ | _
        · rw [Bool.eq_false_iff]
          intro hc
          rw [List.elem_iff, hM] at hc
          obtain ⟨qo, hqo, hfi⟩ := hc
          have hpred : decide (cmpKeyQ qo = cmpKeyQ news[j]) = true := by
            obtain ⟨hlt, hp, _⟩ := List.findIdx?_eq_some_iff_getElem.mp hfi
            exact hp
          rw [hqget] at hpred
          rw [decide_eq_true_eq] at hpred
          have hany : olds.any (fun o => decide (cmpKeyQ o = cmpKeyQ q)) = true :=
            List.any_eq_true.mpr ⟨qo, hqo, by rw [decide_eq_true_eq]; exact hpred⟩
          have hfind : news.findIdx? (fun o => decide (cmpKeyQ o = cmpKeyQ q)) = some j := by
            rw [← hfi]
            refine (findIdx?_ext _ _ ?_ news).symm
            intro x
            exact decide_eq_decide.mpr
              ⟨fun h => h.symm.trans hpred, fun h => hpred.trans h.symm⟩
          rw [hany, hfind] at hb
          simp at hb
        · rw [Bool.and_eq_true] at hb
          obtain ⟨hany, hfind⟩ := hb
          rw [beq_iff_eq] at hfind
          obtain ⟨qo, hqo, hpo⟩ := List.any_eq_true.mp hany
          rw [decide_eq_true_eq] at hpo
          rw [List.elem_iff, hM]
          refine ⟨qo, hqo, ?_⟩
          rw [← hfind]
          refine findIdx?_ext _ _ ?_ news
          intro x
          exact decide_eq_decide.mpr
            ⟨fun h => h.symm.trans hpo, fun h => hpo.trans h.symm⟩
      unfold unmatchedGo addedSpecGo
      rw [hiff]
      have hrest : news.drop (j + 1) = rest := by
        have h1 : news.drop (j + 1) = (news.drop j).drop 1 := by
          rw [List.drop_drop]
        rw [h1, hdrop]
        rfl
      by_cases hcnd : (olds.any (fun o => decide (cmpKeyQ o = cmpKeyQ q))
          && (news.findIdx? (fun o => decide (cmpKeyQ o = cmpKeyQ q)) == some j)) = true
      · rw [hcnd]
        simp only [if_true]
        exact ih (j + 1) hrest
      · rw [Bool.eq_false_iff.mpr hcnd]
        simp only [Bool.false_eq_true, if_false]
        rw [ih (j + 1) hrest]

theorem addedSpecGo_nil_olds (news : List Qual) :
    ∀ (suf : List Qual) (j : Nat), addedSpecGo [] news suf j = suf := by
  intro suf
  induction suf with
  | nil => intro j; rfl
  | cons q rest ih =>
      intro j
      unfold addedSpecGo
      simp only [List.any_nil, Bool.false_and, Bool.false_eq_true, if_false]
      rw [ih (j + 1)]

/-- C6 (amended): the qualifier pairing is by `cmp_key` equality without
consumption — an old qualifier is matched (not dispatched as a removal) iff
some new qualifier shares its `cmp_key`, however many old qualifiers that
entry already served; a new qualifier is dispatched as an addition unless
some old qualifier shares its key and it is the first new entry with that
key; and a lone removed/added pair is promoted to a single update. -/
theorem c6_qual_matching :
    (∀ olds news : List Qual,
      (qualDiff olds news).2
        = olds.filter (fun q => !(news.any (fun o => decide (cmpKeyQ q = cmpKeyQ o))))
      ∧ (qualDiff olds news).1 = addedSpecGo olds news news 0)
    ∧ (∀ a r : Qual, dispatchQualOps [a] [r] = [.update r a]) := by
  constructor
  · intro olds news
    by_cases ho : olds.isEmpty
    · rw [List.isEmpty_iff] at ho
      subst ho
      constructor
      · rfl
      · unfold qualDiff
        simp only [List.isEmpty_nil, if_true]
        rw [addedSpecGo_nil_olds]
    · by_cases hn : news.isEmpty
      · rw [List.isEmpty_iff] at hn
        subst hn
        unfold qualDiff
        rw [Bool.eq_false_iff.mpr ho]
        simp only [Bool.false_eq_true, if_false, List.isEmpty_nil, if_true]
        constructor
        · rw [List.filter_eq_self.mpr]
          intro q hq
          rfl
        · rfl
      · unfold qualDiff
        rw [Bool.eq_false_iff.mpr ho, Bool.eq_false_iff.mpr hn]
        simp only [Bool.false_eq_true, if_false]
        constructor
        · show unmatchedGo (qualMatch olds news).1 olds 0 = _
          unfold qualMatch
          rw [qualMatchGo_fst]
          rw [show (([], []) : List Nat × List Nat).1 ++ matchedIdxs news olds 0
            = [] ++ matchedIdxs news olds 0 from rfl]
          exact unmatched_matched news olds 0 [] (by intro i hi; simp at hi)
        · show unmatchedGo (qualMatch olds news).2 news 0 = _
          refine added_walk olds news (qualMatch olds news).2 ?_ news 0 rfl
          intro i
          unfold qualMatch
          rw [qualMatchGo_snd_mem]
          simp
  · intro a r
    rfl

theorem sameAs_refl (c : Claim) (ir iq irf : Bool) : sameAs c c ir iq irf = true := by
  unfold sameAs
  simp

theorem claimDiffForProp_self (rev : Entity) (prop : String) :
    claimDiffForProp rev rev prop = [] := by
  unfold claimDiffForProp
  refine List.filterMap_eq_nil_iff.mpr ?_
  intro key _
  cases hidx : indexById (rev.getClaims prop) key with
  | none => rfl
  | some c => simp [sameAs_refl]

theorem claimDifferences_self (rev : Entity) : claimDifferences rev rev = [] := by
  unfold claimDifferences
  refine List.flatMap_eq_nil_iff.mpr ?_
  intro prop _
  exact claimDiffForProp_self rev prop

theorem listMinus_self (l : List String) : listMinus l l = [] := by
  unfold listMinus
  refine List.filter_eq_nil_iff.mpr ?_
  intro a ha
  simp only [List.elem_iff.mpr ha, Bool.not_true, Bool.false_eq_true, not_false_eq_true]

theorem satisfiedM_stateless (env : Env) (ct : CType) (rev : Entity)
    (h : (TypeFilter.itemRequiresF.matches ct || TypeFilter.conflictsWithF.matches ct
      || TypeFilter.labelInLanguageF.matches ct
      || TypeFilter.descriptionInLanguageF.matches ct) = true) :
    (∃ e, ∀ st, satisfiedM env ct rev st = .error e)
    ∨ (∃ b, ∀ st, satisfiedM env ct rev st = .ok (b, st)) := by
  cases ct <;> simp [TypeFilter.matches] at h
  case itemRequires p values =>
    by_cases he : (rev.getClaims p).isEmpty
    · right
      exact ⟨false, fun st => by simp [satisfiedM, he]⟩
    · rcases values with _ | vs
      · right
        exact ⟨true, fun st => by simp [satisfiedM, he]⟩
      · rcases vs with _ | ⟨v0, vr⟩
        · right
          exact ⟨true, fun st => by simp [satisfiedM, he]⟩
        · cases hA : anyInValues (rev.getClaims p) (v0 :: vr) with
          | error e =>
              left
              exact ⟨e, fun st => by simp [satisfiedM, he, hA]⟩
          | ok b =>
              right
              exact ⟨b, fun st => by simp [satisfiedM, he, hA]⟩
  case conflictsWith p values =>
    by_cases he : (rev.getClaims p).isEmpty
    · right
      exact ⟨true, fun st => by simp [satisfiedM, he]⟩
    · rcases values with _ | vs
      · right
        exact ⟨false, fun st => by simp [satisfiedM, he]⟩
      · rcases vs with _ | ⟨v0, vr⟩
        · right
          exact ⟨false, fun st => by simp [satisfiedM, he]⟩
        · cases hA : anyInValues (rev.getClaims p) (v0 :: vr) with
          | error e =>
              left
              exact ⟨e, fun st => by simp [satisfiedM, he, hA]⟩
          | ok b =>
              right
              exact ⟨!b, fun st => by simp [satisfiedM, he, hA]⟩
  case labelInLanguage langs =>
    right
    exact ⟨rev.labels.any (fun l => langs.contains l), fun st => rfl⟩
  case descriptionInLanguage langs =>
    right
    exact ⟨rev.descriptions.any (fun l => langs.contains l), fun st => rfl⟩

theorem scoreForUpdateM_pure_zero (env : Env) (ct : CType) (ctx : Context)
    (st : Store) (s : Int) (st2 : Store)
    (h : (TypeFilter.itemRequiresF.matches ct || TypeFilter.conflictsWithF.matches ct
      || TypeFilter.labelInLanguageF.matches ct
      || TypeFilter.descriptionInLanguageF.matches ct) = true)
    (hrev : ctx.old_rev = ctx.new_rev)
    (hok : scoreForUpdateM env ct ctx st = .ok (s, st2)) :
    s = 0 ∧ st2 = st := by
  have hok2 : itemUpdDefault env ct ctx st = .ok (s, st2) := by
    cases ct <;> simp [TypeFilter.matches] at h <;> exact hok
  unfold itemUpdDefault at hok2
  rcases satisfiedM_stateless env ct ctx.new_rev h with ⟨e, he⟩ | ⟨b, hb⟩
  · rw [he st] at hok2
    simp at hok2
  · rw [hb st] at hok2
    rw [ebind_ok] at hok2
    rw [hrev] at hok2
    rw [hb st] at hok2
    rw [ebind_ok, Except.ok.injEq, Prod.mk.injEq] at hok2
    constructor
    · omega
    · exact hok2.2.symm

theorem constraintsFold_mem (env : Env) (tf : TypeFilter) :
    ∀ (ps : List String) (acc : List Constraint) (st : Store) (l : List Constraint)
      (st2 : Store), constraintsFold env tf ps acc st = .ok (l, st2) →
      ∀ c ∈ l, c ∈ acc ∨ tf.matches c.ctype = true
  | [], acc, st, l, st2, h, c, hc => by
      unfold constraintsFold at h
      rw [Except.ok.injEq, Prod.mk.injEq] at h
      rw [← h.1] at hc
      exact Or.inl hc
  | p :: ps, acc, st, l, st2, h, c, hc => by
      unfold constraintsFold at h
      cases hg : getConstraints env (some tf) none p st with
      | error e =>
          rw [hg] at h
          exact absurd h (by simp)
      | ok pr =>
          rw [hg] at h
          dsimp only at h
          rcases constraintsFold_mem env tf ps (acc ++ pr.1) pr.2 l st2 h c hc with hmem | hm
          · rcases List.mem_append.mp hmem with h1 | h2
            · exact Or.inl h1
            · right
              obtain ⟨cs, stg⟩ := pr
              obtain ⟨out, hout⟩ := getConstraints_ok_inv hg
              dsimp only at h2
              rw [hout] at h2
              exact filterConstraints_type_mem h2
          · exact Or.inr hm

theorem itemConstraintsForTuple_mem (env : Env) (props changed : List String)
    (tf : TypeFilter) (itemId : String) (require : Option (List String))
    (st : Store) (l : List Constraint) (st2 : Store)
    (h : itemConstraintsForTuple env props changed tf itemId require st = .ok (l, st2))
    (c : Constraint) (hc : c ∈ l) : tf.matches c.ctype = true := by
  unfold itemConstraintsForTuple at h
  split at h
  · rw [Except.ok.injEq, Prod.mk.injEq] at h
    rw [← h.1] at hc
    exact absurd hc (by simp)
  · dsimp only at h
    cases hf : constraintsFold env tf (cachedSplit st props).1 [] st with
    | error e =>
        rw [hf] at h
        exact absurd h (by simp)
    | ok pr =>
        rw [hf] at h
        dsimp only at h
        have hacc : ∀ x ∈ pr.1, tf.matches x.ctype = true := by
          intro x hx
          rcases constraintsFold_mem env tf (cachedSplit st props).1 [] st pr.1 pr.2 (by rw [hf]) x hx with h0 | h1
          · exact absurd h0 (by simp)
          · exact h1
        split at h
        · rw [Except.ok.injEq, Prod.mk.injEq] at h
          rw [← h.1] at hc
          exact hacc c hc
        · cases hq : env.sparqlGetItems (discoveryQuery require.isSome (cachedSplit st props).2 changed itemId) "prop" with
          | error e =>
              rw [hq] at h
              dsimp only at h
              rw [Except.ok.injEq, Prod.mk.injEq] at h
              rw [← h.1] at hc
              exact hacc c hc
          | ok items =>
              rw [hq] at h
              dsimp only at h
              cases hf2 : constraintsFold env tf items [] pr.2 with
              | error e =>
                  rw [hf2] at h
                  cases e with
                  | sparqlFail q =>
                      dsimp only at h
                      rw [Except.ok.injEq, Prod.mk.injEq] at h
                      rw [← h.1] at hc
                      exact hacc c hc
                  | pyError m => exact absurd h (by simp)
              | ok pr2 =>
                  rw [hf2] at h
                  dsimp only at h
                  rw [Except.ok.injEq, Prod.mk.injEq] at h
                  rw [← h.1] at hc
                  rcases List.mem_append.mp hc with h1 | h2
                  · exact hacc c h1
                  · rcases constraintsFold_mem env tf items [] pr.2 pr2.1 pr2.2 (by rw [hf2]) c h2 with h0 | h1
                    · exact absurd h0 (by simp)
                    · exact h1

theorem itemConstraintsGo_nil_mem (env : Env) (props : List String) :
    ∀ (tuples : List (TypeFilter × String × Option (List String)))
      (acc : List Constraint) (st : Store) (l : List Constraint) (st2 : Store),
      itemConstraintsGo env props [] tuples acc st = .ok (l, st2) →
      ∀ c ∈ l, c ∈ acc ∨ ∃ t ∈ tuples, t.2.2 = none ∧ t.1.matches c.ctype = true
  | [], acc, st, l, st2, h, c, hc => by
      unfold itemConstraintsGo at h
      rw [Except.ok.injEq, Prod.mk.injEq] at h
      rw [← h.1] at hc
      exact Or.inl hc
  | (tf, itemId, require) :: rest, acc, st, l, st2, h, c, hc => by
      unfold itemConstraintsGo at h
      cases hT : itemConstraintsForTuple env props [] tf itemId require st with
      | error e =>
          rw [hT] at h
          exact absurd h (by simp)
      | ok pr =>
          rw [hT] at h
          dsimp only at h
          rcases itemConstraintsGo_nil_mem env props rest (acc ++ pr.1) pr.2 l st2 h c hc with hmem | ⟨t, ht, h1, h2⟩
          · rcases List.mem_append.mp hmem with h1 | h2
            · exact Or.inl h1
            · cases require with
              | none =>
                  right
                  exact ⟨(tf, itemId, none), List.mem_cons_self _ _,
                    rfl, itemConstraintsForTuple_mem env props [] tf itemId none st pr.1 pr.2 (by rw [hT]) c h2⟩
              | some r =>
                  exfalso
                  unfold itemConstraintsForTuple at hT
                  simp only [List.any_nil, Bool.not_false, if_true] at hT
                  rw [Except.ok.injEq, Prod.mk.injEq] at hT
                  rw [← hT.1] at h2
                  exact absurd h2 (by simp)
          · exact Or.inr ⟨t, List.mem_cons_of_mem _ ht, h1, h2⟩

theorem getItemConstraints_nil_mem (env : Env) (props : List String)
    (st : Store) (l : List Constraint) (st2 : Store)
    (h : getItemConstraints env props [] st = .ok (l, st2))
    (c : Constraint) (hc : c ∈ l) :
    (TypeFilter.itemRequiresF.matches c.ctype || TypeFilter.conflictsWithF.matches c.ctype
      || TypeFilter.labelInLanguageF.matches c.ctype
      || TypeFilter.descriptionInLanguageF.matches c.ctype) = true := by
  unfold getItemConstraints at h
  rcases itemConstraintsGo_nil_mem env props itemTuples [] st l st2 h c hc with h0 | ⟨t, ht, h1, h2⟩
  · exact absurd h0 (by simp)
  · simp only [itemTuples, List.mem_cons, List.not_mem_nil, or_false] at ht
    rcases ht with rfl | rfl | rfl | rfl | rfl
    · simp only at h2
      simp [h2]
    · simp only at h2
      simp [h2]
    · exact absurd h1 (by simp)
    · simp only at h2
      simp [h2]
    · simp only at h2
      simp [h2]

theorem foldHandler_update_zero (env : Env) (rev : Entity) :
    ∀ (cs : List Constraint) (r : Result) (st : Store) (r2 : Result) (st2 : Store),
      (∀ c ∈ cs,
        (TypeFilter.itemRequiresF.matches c.ctype || TypeFilter.conflictsWithF.matches c.ctype
          || TypeFilter.labelInLanguageF.matches c.ctype
          || TypeFilter.descriptionInLanguageF.matches c.ctype) = true) →
      foldHandler (fun c r st => handleUpdateM env c ⟨rev, rev, none, none⟩ r st) cs r st
        = .ok (r2, st2) →
      r2.score = r.score ∧ ∀ p ∈ r2.evaluated, p ∈ r.evaluated ∨ p.2 = 0
  | [], r, st, r2, st2, _, h => by
      unfold foldHandler at h
      rw [Except.ok.injEq, Prod.mk.injEq] at h
      rw [← h.1]
      exact ⟨rfl, fun p hp => Or.inl hp⟩
  | c :: cs, r, st, r2, st2, hpure, h => by
      unfold foldHandler at h
      obtain ⟨rA, stA, hH, hRest⟩ := ebind_ok_inv h
      unfold handleUpdateM at hH
      obtain ⟨s, stS, hS, hAdd⟩ := ebind_ok_inv hH
      obtain ⟨hs0, hstS⟩ := scoreForUpdateM_pure_zero env c.ctype ⟨rev, rev, none, none⟩
        st s stS (hpure c (List.mem_cons_self _ _)) rfl hS
      rw [Except.ok.injEq, Prod.mk.injEq] at hAdd
      obtain ⟨hrA, _⟩ := hAdd
      obtain ⟨hsc, hmem⟩ := foldHandler_update_zero env rev cs rA stA r2 st2
        (fun x hx => hpure x (List.mem_cons_of_mem _ hx)) hRest
      constructor
      · rw [hsc, ← hrA]
        simp [Result.add, hs0]
      · intro p hp
        rcases hmem p hp with hin | hz
        · rw [← hrA] at hin
          simp only [Result.add, hs0, zero_mul, List.mem_append, List.mem_singleton] at hin
          rcases hin with h1 | h2
          · exact Or.inl h1
          · right
            rw [h2]
        · exact Or.inr hz

/-- C1 (amended): for every entity revision, `evaluate_change(rev, rev)` that
completes returns a Result whose score is 0 and all of whose evaluated entries
carry score 0; the evaluated list need not be empty, since entity-level
constraints of properties present in both revisions are still dispatched as
zero-score updates. -/
theorem c1_idempotent_score (env : Env) (rev : Entity) (st : Store)
    (r : Result) (st2 : Store)
    (h : evaluateChange env rev rev none st = .ok (r, st2)) :
    r.score = 0 ∧ ∀ p ∈ r.evaluated, p.2 = 0 := by
  unfold evaluateChange at h
  rw [claimDifferences_self] at h
  have hA : atomsFold env rev rev none [] Result.empty [] st = .ok ((Result.empty, []), st) := rfl
  rw [hA, ebind_ok] at h
  dsimp only at h
  rw [listMinus_self] at h
  simp only [foldHandler, ebind_ok] at h
  obtain ⟨ics, st5, hGet, hFold⟩ := ebind_ok_inv h
  obtain ⟨hsc, hmem⟩ := foldHandler_update_zero env rev ics Result.empty st5 r st2
    (fun c hc => getItemConstraints_nil_mem env
      (listInter (alistKeys rev.claims) (alistKeys rev.claims)) st ics st5 hGet c hc)
    hFold
  refine ⟨hsc, fun p hp => ?_⟩
  rcases hmem p hp with hin | hz
  · exact absurd hin (by simp [Result.empty])
  · exact hz

theorem c1_idempotent_score_witness :
    ({ score := 0, evaluated := [(cIR7, 0)] } : Result).score = 0 ∧
    ∀ p ∈ ({ score := 0, evaluated := [(cIR7, 0)] } : Result).evaluated, p.2 = 0 :=
  c1_idempotent_score trivEnv rev7 store7 { score := 0, evaluated := [(cIR7, 0)] } store7 rfl
